import Mathlib

/-!
Verification development for the chat-based ordering app.
Shallow embedding of the source:
  src/utils/validation.ts      (validation pipeline)
  src/services/geminiService.ts (external response adapter)
  src/App.tsx                  (cart engine, notification center, flow controller)
Strings are modelled by Lean `String` (a wrapper around `List Char`); JS regex
operations are modelled by explicit character-list functions with the same
semantics on the inputs that occur.
-/

namespace Chat

/-- JS whitespace class `\s` restricted to the ASCII whitespace characters
(space, tab, newline, carriage return, vertical tab, form feed). -/
def isJsWs (c : Char) : Bool :=
  c = ' ' || c = '\t' || c = '\n' || c = '\r' || c = '\x0b' || c = '\x0c'

/-- JS `String.prototype.trim` on a character list. -/
def jsTrim (l : List Char) : List Char :=
  ((l.dropWhile isJsWs).reverse.dropWhile isJsWs).reverse

/-! ## Validation pipeline — src/utils/validation.ts -/

/-- `CEPValidationResult` of validation.ts (lines 6-10); the absent `error`
field is `none`. -/
structure CEPValidationResult where
  valid : Bool
  cleanCEP : String
  error : Option String
deriving DecidableEq, Repr

/-- The digit string left by `cep.replace(/\D/g, '')` (validation.ts line 34). -/
def cepDigits (cep : String) : List Char := cep.data.filter Char.isDigit

/-- Regex `^0+$` of validation.ts line 46 (applied to the digit string). -/
def patAllZeros (l : List Char) : Bool := !l.isEmpty && l.all (· == '0')

/-- Regex `^1{8}$` of validation.ts line 47. -/
def patAllOnes (l : List Char) : Bool := l.length == 8 && l.all (· == '1')

/-- Regex `^(\d)\1{7}$` of validation.ts line 48: a single digit repeated 8 times. -/
def patRepeated (l : List Char) : Bool :=
  match l with
  | c :: rest => c.isDigit && rest.length == 7 && rest.all (· == c)
  | [] => false

/-- `parseInt(cleanCEP[0], 10)` for a digit-only string (validation.ts line 58);
the string is known to have length 8 at the call site, so the empty case is
unreachable there (modelled as 0, for which the `> 9` guard is false, matching
`NaN > 9 === false`). -/
def firstDigitVal (l : List Char) : Nat :=
  match l with
  | c :: _ => c.toNat - '0'.toNat
  | [] => 0

/-- `validateCEP` of validation.ts lines 29-64. -/
def validateCEP (cep : String) : CEPValidationResult :=
  if cep = "" then
    { valid := false, cleanCEP := "", error := some "Por favor, digite um CEP." }
  else
    let d := cepDigits cep
    if d.length = 0 then
      { valid := false, cleanCEP := "", error := some "Por favor, digite um CEP." }
    else if d.length ≠ 8 then
      { valid := false, cleanCEP := ⟨d⟩,
        error := some ("CEP deve ter 8 digitos. Voce digitou " ++ toString d.length ++ ".") }
    else if patAllZeros d || patAllOnes d || patRepeated d
        || d = "12345678".data || d = "87654321".data then
      { valid := false, cleanCEP := ⟨d⟩, error := some "CEP invalido. Por favor, digite um CEP real." }
    else if firstDigitVal d > 9 then
      { valid := false, cleanCEP := ⟨d⟩, error := some "CEP invalido. Por favor, digite um CEP real." }
    else
      { valid := true, cleanCEP := ⟨d⟩, error := none }

/-- `NameValidationResult` of validation.ts lines 13-17. -/
structure NameValidationResult where
  valid : Bool
  cleanName : String
  error : Option String
deriving DecidableEq, Repr

/-- Regex `^[\d\s]+$` of validation.ts line 85. -/
def patOnlyDigitsWs (s : String) : Bool :=
  !s.data.isEmpty && s.data.all (fun c => c.isDigit || isJsWs c)

/-- A character in the Latin letter range `a-zA-ZÀ-ÿ` of validation.ts line 89. -/
def isLatinLetter (c : Char) : Bool :=
  (('a' ≤ c && c ≤ 'z') || ('A' ≤ c && c ≤ 'Z') || ('À' ≤ c && c ≤ 'ÿ'))

/-- Regex `^[^a-zA-ZÀ-ÿ\s]+$` of validation.ts line 89. -/
def patNoLetters (s : String) : Bool :=
  !s.data.isEmpty && s.data.all (fun c => !(isLatinLetter c || isJsWs c))

/-- `validateName` of validation.ts lines 69-94. -/
def validateName (name : String) : NameValidationResult :=
  if name = "" then
    { valid := false, cleanName := "", error := some "Por favor, digite seu nome." }
  else
    let cleanName : String := ⟨jsTrim name.data⟩
    if cleanName.data.length < 2 then
      { valid := false, cleanName := cleanName,
        error := some "Por favor, digite um nome valido (minimo 2 caracteres)." }
    else if cleanName.data.length > 100 then
      { valid := false, cleanName := ⟨cleanName.data.take 100⟩,
        error := some "Nome muito longo. Maximo 100 caracteres." }
    else if patOnlyDigitsWs cleanName then
      { valid := false, cleanName := cleanName,
        error := some "Por favor, digite seu nome (nao apenas numeros)." }
    else if patNoLetters cleanName then
      { valid := false, cleanName := cleanName, error := some "Por favor, digite um nome valido." }
    else
      { valid := true, cleanName := cleanName, error := none }

/-- The `missing` tag of `AddressValidationResult` (validation.ts line 22). -/
inductive AddressMissing | number | all
deriving DecidableEq, Repr

/-- `AddressValidationResult` of validation.ts lines 20-24. -/
structure AddressValidationResult where
  valid : Bool
  missing : Option AddressMissing
  error : Option String
deriving DecidableEq, Repr

/-- Word-boundary test used by `\b\d+\b` and `\bs\/?n\b`: the character before
or after a token is a boundary when it is absent or not a word character
(`[A-Za-z0-9_]`). -/
def isWordChar (c : Char) : Bool :=
  ('a' ≤ c && c ≤ 'z') || ('A' ≤ c && c ≤ 'Z') || c.isDigit || c = '_'

/-- Scans for `\b\d+\b` (validation.ts line 111): a maximal digit run whose
neighbours are non-word characters.  `prev` is the character preceding the
current position (`none` at the start). -/
def hasStandaloneNumber : Option Char → List Char → Bool
  | _, [] => false
  | prev, c :: rest =>
    if c.isDigit && (match prev with | some p => !isWordChar p | none => true) then
      -- a digit run starting at a word boundary; check the right boundary
      let after := rest.dropWhile Char.isDigit
      (match after with | [] => true | a :: _ => !isWordChar a)
        || hasStandaloneNumber (some c) rest
    else
      hasStandaloneNumber (some c) rest

/-- Scans for `\bs\/?n\b` case-insensitively (validation.ts line 111). -/
def hasSemNumero : Option Char → List Char → Bool
  | _, [] => false
  | prev, c :: rest =>
    let leftOk := match prev with | some p => !isWordChar p | none => true
    let found :=
      if (c = 's' || c = 'S') && leftOk then
        match rest with
        | '/' :: n :: rest2 =>
          (n = 'n' || n = 'N') && (match rest2 with | [] => true | a :: _ => !isWordChar a)
        | n :: rest2 =>
          (n = 'n' || n = 'N') && (match rest2 with | [] => true | a :: _ => !isWordChar a)
        | [] => false
      else false
    found || hasSemNumero (some c) rest

/-- `validateAddress` of validation.ts lines 99-118. -/
def validateAddress (address : String) : AddressValidationResult :=
  if address = "" then
    { valid := false, missing := some .all, error := some "Por favor, digite o endereco." }
  else
    let cleanAddress := jsTrim address.data
    if cleanAddress.length < 5 then
      { valid := false, missing := some .all,
        error := some "O endereco parece muito curto. Por favor, digite Rua, Bairro e Cidade." }
    else if hasStandaloneNumber none cleanAddress || hasSemNumero none cleanAddress then
      { valid := true, missing := none, error := none }
    else
      { valid := false, missing := some .number, error := none }

/-- Result shape of `validateAddressNumber` and `validatePaymentMethod`. -/
structure SimpleValidationResult where
  valid : Bool
  error : Option String
deriving DecidableEq, Repr

/-- `validateAddressNumber` of validation.ts lines 123-139. -/
def validateAddressNumber (input : String) : SimpleValidationResult :=
  if input = "" then
    { valid := false, error := some "Por favor, digite o numero." }
  else
    let cleanInput := jsTrim input.data
    if cleanInput.length = 0 then
      { valid := false, error := some "Por favor, digite o numero da casa." }
    else if cleanInput.length > 50 then
      { valid := false, error := some "Numero muito longo." }
    else
      { valid := true, error := none }

/-- `validatePaymentMethod` of validation.ts lines 144-160. -/
def validatePaymentMethod (method : String) : SimpleValidationResult :=
  if method = "" then
    { valid := false, error := some "Por favor, selecione a forma de pagamento." }
  else
    let cleanMethod := jsTrim method.data
    if cleanMethod.length < 2 then
      { valid := false, error := some "Por favor, selecione uma forma de pagamento valida." }
    else if cleanMethod.length > 50 then
      { valid := false, error := some "Forma de pagamento invalida." }
    else
      { valid := true, error := none }

/-- Collapses whitespace runs to single spaces: JS `.replace(/\s+/g, ' ')`.
The flag records whether the previous character was whitespace (already
replaced by one space). -/
def collapseWsGo : Bool → List Char → List Char
  | _, [] => []
  | prevWs, c :: t =>
    if isJsWs c then
      if prevWs then collapseWsGo true t else ' ' :: collapseWsGo true t
    else c :: collapseWsGo false t

/-- JS `.replace(/\s+/g, ' ')`. -/
def collapseWs (l : List Char) : List Char := collapseWsGo false l

/-- JS `.replace(/[<>]/g, '')`. -/
def stripAngles (l : List Char) : List Char := l.filter (fun c => !(c = '<' || c = '>'))

/-- `sanitizeDisplayText` of validation.ts lines 165-173:
trim, strip `<`/`>`, collapse whitespace, then truncate to 1000 characters. -/
def sanitizeDisplayText (text : String) : String :=
  if text = "" then "" else ⟨(collapseWs (stripAngles (jsTrim text.data))).take 1000⟩

/-! ## External response adapter — src/services/geminiService.ts -/

/-- JS `toLowerCase` on the basic Latin and Latin-1 letters (the only
characters relevant to the keyword buckets and validators). -/
def jsToLower (c : Char) : Char :=
  if 'A' ≤ c && c ≤ 'Z' then Char.ofNat (c.toNat + 32)
  else if (0xC0 ≤ c.toNat && c.toNat ≤ 0xDE) && !(c.toNat = 0xD7) then Char.ofNat (c.toNat + 32)
  else c

/-- JS `String.prototype.includes`: `needle` occurs contiguously in `hay`. -/
def hasSub (hay needle : List Char) : Bool :=
  if needle.isPrefixOf hay then true
  else
    match hay with
    | [] => false
    | _ :: t => hasSub t needle

/-- `['w1', 'w2', ...].some(v => lower.includes(v))`. -/
def bucketHit (lower : List Char) (ws : List String) : Bool :=
  ws.any (fun v => hasSub lower v.data)

/-- `['oi', ...].some(v => lower === v || lower.startsWith(v + ' '))`
(geminiService.ts line 96). -/
def greetingHit (lower : List Char) (ws : List String) : Bool :=
  ws.any (fun v => lower == v.data || (v.data ++ [' ']).isPrefixOf lower)

/-- `GeminiService.getLocalResponse` of geminiService.ts lines 56-106: the
deterministic keyword-bucket fallback responder. -/
def getLocalResponse (message : String) : String :=
  let lower := jsTrim (message.data.map jsToLower)
  if lower.length = 0 then "Desculpe, não entendi."
  else if bucketHit lower ["quero", "me vê", "manda", "adicionar", "pedir", "comprar", "fome"] then
    "Para pedir, é só clicar nos botões de **(+)** e **(-)** ao lado de cada item no cardápio abaixo! 👇🍔"
  else if bucketHit lower ["cardápio", "cardapio", "menu", "opções", "tem o que", "ver"] then
    "Nosso cardápio completo está logo abaixo das mensagens. Navegue pelas abas (Burgers, Bebidas) para ver tudo! 📋"
  else if bucketHit lower ["sugestão", "indica", "bom", "fome", "melhor"] then
    "O **X-Bacon Cheddar** é o favorito da casa! 🥓 Que tal experimentar? Adicione ele ali no menu."
  else if bucketHit lower ["fechar", "conta", "pagar", "fim", "acabei", "encerrar"] then
    "Perfeito! Se já escolheu tudo, clique no botão **Finalizar** (o botão verde com o carrinho) para prosseguirmos."
  else if bucketHit lower ["hora", "funcionamento", "aberto", "fecha"] then
    "Estamos abertos todos os dias das **18h às 23h**! ⏰"
  else if bucketHit lower ["onde", "fica", "local", "endereço", "bairro"] then
    "Somos uma Dark Kitchen! Entregamos em toda a região. 🛵"
  else if bucketHit lower ["pix", "cartão", "dinheiro", "pagamento"] then
    "Aceitamos Pix, Cartão de Crédito/Débito e Dinheiro. Você escolhe na finalização! 💳"
  else if greetingHit lower ["oi", "olá", "ola", "bom dia", "boa tarde", "boa noite", "ei"] then
    "Olá! Bem-vindo à **Burger & Co.**! 🍔 Estou aqui para ajudar."
  else if bucketHit lower ["obrigado", "valeu", "tks"] then
    "Imagina! Estou à disposição. 😉"
  else
    "Entendi! Dê uma olhada no nosso cardápio visual aqui embaixo. Qualquer dúvida sobre os ingredientes, é só perguntar! 😉"

/-- `GeminiService.sanitizeInput` of geminiService.ts lines 118-126:
trim, truncate to 500 characters, strip `<`/`>`, collapse whitespace. -/
def sanitizeInput (text : String) : String :=
  if text = "" then "" else ⟨collapseWs (stripAngles ((jsTrim text.data).take 500))⟩

/-- `GeminiService.isValidResponse` of geminiService.ts lines 131-138. -/
def isValidResponse (text : String) : Bool :=
  if text = "" then false
  else if text.data.length < 2 then false
  else if hasSub text.data "<html".data || hasSub text.data "<!DOCTYPE".data then false
  else if hasSub (text.data.map jsToLower) "error".data && text.data.length < 50 then false
  else if hasSub text.data "undefined".data && text.data.length < 20 then false
  else true

/-- Outcome of one `fetch` of the text-generation endpoint, as observed by
`sendMessage`: a 2xx response with a body, a non-2xx HTTP status, a transport
rejection, or the 15-second abort. -/
inductive FetchOutcome where
  | ok (body : String)
  | httpFail (status : Nat)
  | netFail
  | timeout
deriving DecidableEq, Repr

/-- Observable outcome of `sendMessage`: the reply, the number of fetch
attempts made, and the backoff delays awaited (milliseconds). -/
structure SendOutcome where
  reply : String
  attempts : Nat
  delays : List Nat
deriving DecidableEq, Repr

/-- `GeminiService.maxRetries` (geminiService.ts line 48). -/
def maxRetries : Nat := 2

/-- `GeminiService.retryDelay` in milliseconds (geminiService.ts line 49). -/
def retryDelay : Nat := 1000

/-- The retry loop of `sendMessage` (geminiService.ts lines 153-203), driven
by an oracle `outcomes` giving each attempt's fetch outcome.  `remaining` is
`maxRetries - attempt`.  Per the source: a valid 2xx body returns trimmed; an
`AbortError` or a 4xx status breaks out of the loop at once; any other failure
(transport error, non-4xx status, invalid body) waits
`retryDelay * 2 ^ attempt` and retries while attempts remain. -/
def attemptLoop (outcomes : Nat → FetchOutcome) : Nat → Nat → Option String × Nat × List Nat
  | remaining, attempt =>
    let retryOr : Option String × Nat × List Nat :=
      match remaining with
      | 0 => (none, 1, [])
      | r + 1 =>
        let next := attemptLoop outcomes r (attempt + 1)
        (next.1, next.2.1 + 1, retryDelay * 2 ^ attempt :: next.2.2)
    match outcomes attempt with
    | .ok body => if isValidResponse body then (some ⟨jsTrim body.data⟩, 1, []) else retryOr
    | .timeout => (none, 1, [])
    | .httpFail st => if 400 ≤ st ∧ st < 500 then (none, 1, []) else retryOr
    | .netFail => retryOr

/-- `GeminiService.sendMessage` of geminiService.ts lines 144-208.  The
prompt/history construction only feeds the fetch oracle and is elided; the
guard on the sanitized message and the fall-through to `getLocalResponse`
follow the source. -/
def sendMessage (message : String) (outcomes : Nat → FetchOutcome) : SendOutcome :=
  let s := sanitizeInput message
  if s = "" then { reply := "Desculpe, nao entendi. Pode repetir?", attempts := 0, delays := [] }
  else
    match attemptLoop outcomes maxRetries 0 with
    | (some t, n, ds) => { reply := t, attempts := n, delays := ds }
    | (none, n, ds) => { reply := getLocalResponse s, attempts := n, delays := ds }

/-- A fetch outcome that the retry loop treats as transient: a transport
error, a non-4xx HTTP failure, or a 2xx body rejected by `isValidResponse`. -/
def retriableFail (o : FetchOutcome) : Prop :=
  match o with
  | .ok body => isValidResponse body = false
  | .httpFail st => st < 400 ∨ 500 ≤ st
  | .netFail => True
  | .timeout => False

/-! ## Cart engine — src/types.ts, src/constants.ts, src/App.tsx -/

/-- `MenuItem` of types.ts; prices are exact decimals, modelled in `ℚ`. -/
structure MenuItem where
  id : Nat
  name : String
  price : ℚ
  category : String
deriving DecidableEq, Repr

/-- `CartItem` of types.ts: a menu item plus a quantity. -/
structure CartItem extends MenuItem where
  quantity : Nat
deriving DecidableEq, Repr

/-- `DELIVERY_FEE` of constants.ts. -/
def DELIVERY_FEE : ℚ := 7

/-- Menu item 1 of constants.ts (the classic burger), used as a concrete
sample item. -/
def xburger : MenuItem :=
  { id := 1, name := "X-Burger Clássico", price := 25, category := "Burgers" }

/-- `subtotalValue` of App.tsx line 138:
`cart.reduce((acc, item) => acc + item.price * item.quantity, 0)`. -/
def subtotalValue (cart : List CartItem) : ℚ :=
  cart.foldl (fun acc i => acc + i.price * (i.quantity : ℚ)) 0

/-- `totalValue` of App.tsx line 139:
`subtotal + (subtotal > 0 ? DELIVERY_FEE : 0)`. -/
def totalValue (cart : List CartItem) : ℚ :=
  subtotalValue cart + (if subtotalValue cart > 0 then DELIVERY_FEE else 0)

/-- `addToCart` of App.tsx lines 558-571 (the state update applied to the
previous cart): increment an existing line unless it is at the 99 ceiling
(then no-op), otherwise append a new line with quantity 1. -/
def addToCart (item : MenuItem) (cart : List CartItem) : List CartItem :=
  match cart.find? (fun i => i.id == item.id) with
  | some existing =>
    if existing.quantity ≥ 99 then cart
    else cart.map (fun i => if i.id == item.id then { i with quantity := i.quantity + 1 } else i)
  | none => cart ++ [{ toMenuItem := item, quantity := 1 }]

/-- `removeFromCart` of App.tsx lines 573-576: decrement the matching line and
drop any line whose quantity is no longer positive. -/
def removeFromCart (id : Nat) (cart : List CartItem) : List CartItem :=
  (cart.map (fun i => if i.id == id then { i with quantity := i.quantity - 1 } else i)).filter
    (fun i => decide (0 < i.quantity))

/-- The two cart mutations exposed by the app. -/
inductive CartOp where
  | add (item : MenuItem)
  | remove (id : Nat)
deriving DecidableEq, Repr

def applyCartOp (cart : List CartItem) : CartOp → List CartItem
  | .add item => addToCart item cart
  | .remove id => removeFromCart id cart

/-- The cart reached from the initial empty cart by a sequence of
add/remove operations. -/
def runCart (ops : List CartOp) : List CartItem := ops.foldl applyCartOp []

/-- Invariant carried by every reachable cart: quantities in 1..99 and
pairwise-distinct item ids. -/
def CartInv (cart : List CartItem) : Prop :=
  (∀ i ∈ cart, 1 ≤ i.quantity ∧ i.quantity ≤ 99) ∧
    (cart.map (fun i => i.id)).Nodup

/-! ## Notification center — src/App.tsx lines 23-29 and 91-113 -/

inductive NotifType
  | error | warning | success | info
deriving DecidableEq, Repr

/-- `Notification` of App.tsx lines 24-29; the id is the creation timestamp
`Date.now()`, modelled as a natural number of milliseconds. -/
structure Notification where
  id : Nat
  type : NotifType
  message : String
  dismissible : Bool
deriving DecidableEq, Repr

/-- `showNotification` of App.tsx lines 102-109: a no-op when a notification
with an identical message is already visible, otherwise keep the last 3
(`prev.slice(-3)`) and append the new notification. -/
def showNotification (prev : List Notification) (now : Nat) (t : NotifType)
    (message : String) (dismissible : Bool) : List Notification :=
  if prev.any (fun n => n.message == message) then prev
  else prev.drop (prev.length - 3) ++
    [{ id := now, type := t, message := message, dismissible := dismissible }]

/-- `dismissNotification` of App.tsx lines 111-113. -/
def dismissNotification (prev : List Notification) (id : Nat) : List Notification :=
  prev.filter (fun n => !(n.id == id))

/-- The 1-second auto-dismiss sweep of App.tsx lines 92-100: drop dismissible
notifications older than 5000 ms. -/
def sweepNotifications (prev : List Notification) (now : Nat) : List Notification :=
  prev.filter (fun n => !n.dismissible || decide (now - n.id < 5000))

/-- The operations that mutate the notification list. -/
inductive NotifOp where
  | showOp (now : Nat) (t : NotifType) (message : String) (dismissible : Bool)
  | dismissOp (id : Nat)
  | sweepOp (now : Nat)

def applyNotifOp (prev : List Notification) : NotifOp → List Notification
  | .showOp now t msg d => showNotification prev now t msg d
  | .dismissOp id => dismissNotification prev id
  | .sweepOp now => sweepNotifications prev now

/-- The notification list reached from the initially empty list. -/
def runNotifs (ops : List NotifOp) : List Notification := ops.foldl applyNotifOp []

/-! ## Address resolution and conversation flow controller — src/App.tsx -/

/-- `FlowStep` of App.tsx line 21. -/
inductive FlowStep
  | ordering | ask_name | ask_address | ask_address_number | confirm_address
  | ask_payment | review | edit_info | finished
deriving DecidableEq, Repr

/-- `editField` values of App.tsx line 45. -/
inductive EditField
  | name | address | payment
deriving DecidableEq, Repr

/-- `UserData` of types.ts. -/
structure UserData where
  name : String
  address : String
  paymentMethod : String
deriving DecidableEq, Repr

inductive Role
  | bot | user
deriving DecidableEq, Repr

/-- A chat message (types.ts `Message`); id/timestamp/image are presentation
data with no effect on control flow and are elided. -/
structure ChatMsg where
  role : Role
  text : String
deriving DecidableEq, Repr

/-- The flow-relevant React state of App.tsx (lines 32-53).  `isTyping`,
search spinners, swipe state, the menu overlay and the progress indicator are
pure presentation and are elided; `isChatClosed` only gates `handleSend`
upstream of the dispatch modelled here. -/
structure AppState where
  messages : List ChatMsg
  cart : List CartItem
  userData : UserData
  pendingAddress : String
  flowStep : FlowStep
  editField : Option EditField
  notifications : List Notification
  isOnline : Bool
deriving DecidableEq, Repr

/-- `addMessage` of App.tsx lines 125-136 (random id and clock timestamp are
presentation data; the stored text is sanitized as in the source). -/
def addMessage (s : AppState) (role : Role) (text : String) : AppState :=
  { s with messages := s.messages ++ [{ role := role, text := sanitizeDisplayText text }] }

/-- `showNotification` as invoked from the flow controller; notification
timestamps are irrelevant to every claim about the flow, so the flow model
passes 0 as the clock value. -/
def notify (s : AppState) (t : NotifType) (msg : String) (d : Bool) : AppState :=
  { s with notifications := showNotification s.notifications 0 t msg d }

/-- The JSON fields of a successful ViaCEP lookup; a field absent from the
response is `""` (the source reads them as `data.campo || ''`). -/
structure ViaCepData where
  logradouro : String
  bairro : String
  localidade : String
  uf : String
deriving DecidableEq, Repr

/-- Outcome of the ViaCEP fetch as observed by `handleCEPAction`. -/
inductive CepLookupOutcome where
  | found (d : ViaCepData)
  | notFound
  | httpError
  | timeout
deriving DecidableEq, Repr

/-- External environment of the flow controller: the ViaCEP lookup keyed by
the normalized CEP, and the text-generation fetch oracle. -/
structure FlowEnv where
  cepLookup : String → CepLookupOutcome
  fetchOutcomes : Nat → FetchOutcome

/-- JS `.replace(/^,\s*/, '')`: when the string starts with a comma, drop it
and the following whitespace run. -/
def stripLeadComma (l : List Char) : List Char :=
  match l with
  | [] => []
  | c :: t => if c = ',' then t.dropWhile isJsWs else c :: t

/-- Scan step of JS `.replace(/,\s*,/g, ',')` with the regex engine's
left-to-right, non-overlapping, no-rescan replacement semantics.  The fuel
argument only bounds the scan (each step consumes at least one character, so
any fuel of at least the list length gives the same result); it makes the
function structurally recursive. -/
def collapseGo : Nat → List Char → List Char
  | 0, l => l
  | _ + 1, [] => []
  | fuel + 1, c :: t =>
    if c = ',' ∧ (t.dropWhile isJsWs).head? = some ',' then
      ',' :: collapseGo fuel (t.dropWhile isJsWs).tail
    else
      c :: collapseGo fuel t

/-- JS `.replace(/,\s*,/g, ',')`. -/
def collapseCommaRuns (l : List Char) : List Char := collapseGo l.length l

/-- The address join of App.tsx lines 258 and 325:
`logradouro, bairro, localidade - uf` followed by the `^,\s*` strip and the
`,\s*,` collapse. -/
def joinAddress (d : ViaCepData) : String :=
  ⟨collapseCommaRuns (stripLeadComma
    (d.logradouro.data ++ (", ".data ++ (d.bairro.data ++ (", ".data ++
      (d.localidade.data ++ (" - ".data ++ d.uf.data)))))))⟩

/-- The comma-delimited segments of a character list (text between commas;
a leading comma yields a leading empty segment). -/
def splitComma : List Char → List (List Char)
  | [] => [[]]
  | c :: t =>
    if c = ',' then [] :: splitComma t
    else
      match splitComma t with
      | s :: r => (c :: s) :: r
      | [] => [[c]]

/-- A segment is non-empty when it holds at least one non-whitespace
character. -/
def segHasContent (seg : List Char) : Bool := seg.any (fun c => !isJsWs c)

/-- The displayed address has no empty comma-delimited segment. -/
def noEmptySegment (l : List Char) : Bool := (splitComma l).all segHasContent

/-- The displayed address has no two consecutive commas. -/
def noDoubleComma (l : List Char) : Bool := !hasSub l [',', ',']

/-- A comma followed (possibly after whitespace) by another comma occurs
somewhere in the list — the pattern `,\s*,` the collapse step rewrites. -/
def hasCWC : List Char → Bool
  | [] => false
  | c :: t => (c == ',' && ((t.dropWhile isJsWs).head? == some ',')) || hasCWC t

/-- A lookup field value containing no comma. -/
def commaFree (l : List Char) : Prop := ∀ x ∈ l, x ≠ ','

/-- A lookup field value containing at least one non-whitespace character. -/
def hasInk (l : List Char) : Prop := ∃ x ∈ l, isJsWs x = false

/-- The suffix of the raw join after the second comma and its space:
`localidade ++ " - " ++ uf`. -/
def tailPart (C U : List Char) : List Char := C ++ (' ' :: '-' :: ' ' :: U)

/-- The lookup answer for a code whose directory entry has no street and no
neighborhood (only city and state) — a combination `handleCEPAction` accepts
as a success. -/
def seData : ViaCepData :=
  { logradouro := "", bairro := "", localidade := "São Paulo", uf := "SP" }

/-- A lookup answer with all four fields present. -/
def ruaAData : ViaCepData :=
  { logradouro := "Rua A", bairro := "Centro", localidade := "Cidade", uf := "SP" }

/-- `handleCEPAction` of App.tsx lines 162-220: validate, check connectivity,
then consult the lookup; every failing branch surfaces a notification and
yields no data. -/
def handleCEPAction (env : FlowEnv) (s : AppState) (cep : String) :
    AppState × Option ViaCepData :=
  let v := validateCEP cep
  if v.valid = false then
    (notify s .error (v.error.getD "CEP invalido") true, none)
  else if s.isOnline = false then
    (notify s .error "Sem conexao. Verifique sua internet." true, none)
  else
    match env.cepLookup v.cleanCEP with
    | .timeout => (notify s .error "Tempo esgotado. Tente novamente ou digite o endereco." true, none)
    | .httpError => (notify s .error "Erro ao buscar CEP. Digite o endereco completo." true, none)
    | .notFound => (notify s .error "CEP nao encontrado. Verifique e tente novamente." true, none)
    | .found d =>
      if d.logradouro = "" ∧ d.bairro = "" ∧ d.localidade = "" then
        (notify s .warning "CEP encontrado, mas sem endereco completo. Digite manualmente." true, none)
      else (s, some d)

/-- Matches the regex `\d{5}-?\d{3}` anchored at the head of `l`, returning
the matched characters. -/
def cepMatchAt (l : List Char) : Option (List Char) :=
  match l with
  | a :: b :: c :: d :: e :: rest =>
    if a.isDigit && b.isDigit && c.isDigit && d.isDigit && e.isDigit then
      match rest with
      | '-' :: f :: g :: h :: _ =>
        if f.isDigit && g.isDigit && h.isDigit then some [a, b, c, d, e, '-', f, g, h] else none
      | f :: g :: h :: _ =>
        if f.isDigit && g.isDigit && h.isDigit then some [a, b, c, d, e, f, g, h] else none
      | _ => none
    else none
  | _ => none

/-- First (leftmost) match of `\d{5}-?\d{3}` in the list. -/
def findCepSub : List Char → Option (List Char)
  | [] => none
  | c :: t =>
    match cepMatchAt (c :: t) with
    | some m => some m
    | none => findCepSub t

/-- `sanitizedInput.match(/\d{5}-?\d{3}/) || sanitizedInput.match(/^\d{8}$/)`
of App.tsx lines 254 and 320, yielding the matched text. -/
def cepMatchOf (s : String) : Option String :=
  match findCepSub s.data with
  | some m => some ⟨m⟩
  | none => if s.data.length = 8 ∧ s.data.all Char.isDigit then some s else none

/-- `itemsText` of `showReviewMessage` (App.tsx line 442). -/
def itemsLines (cart : List CartItem) : String :=
  String.intercalate "\n" (cart.map (fun i => "- " ++ toString i.quantity ++ "x " ++ i.name))

/-- `showReviewMessage` of App.tsx lines 441-444; the `toFixed(2)` currency
rendering is abstracted to `toString` (message text never feeds back into
control flow). -/
def showReviewMessage (s : AppState) (data : UserData) : AppState :=
  addMessage s .bot ("*CONFIRA SEU PEDIDO*\n\n" ++ itemsLines s.cart ++
    "\n\n*Nome:* " ++ data.name ++ "\n*Local:* " ++ data.address ++
    "\n*Pagamento:* " ++ data.paymentMethod ++
    "\n\n*TOTAL: R$ " ++ toString (totalValue s.cart) ++
    "*\n\nEsta tudo certo? Clique em **Confirmar** ou **Voltar** para corrigir!")

/-- The `edit_info`/`editField === 'name'` block of App.tsx lines 236-251. -/
def editNameBranch (s : AppState) (input : String) : AppState :=
  let nv := validateName input
  if nv.valid = false then
    addMessage (notify s .error (nv.error.getD "Nome invalido") true) .bot
      ((nv.error.getD "") ++ " Tente novamente.")
  else
    showReviewMessage
      (addMessage { s with userData := { s.userData with name := nv.cleanName },
                           editField := none, flowStep := FlowStep.review } .bot
        ("Nome atualizado para *" ++ nv.cleanName ++ "*!"))
      { s.userData with name := nv.cleanName }

/-- The `edit_info`/`editField === 'address'` block of App.tsx lines 252-283. -/
def editAddressBranch (env : FlowEnv) (s : AppState) (input : String) : AppState :=
  match cepMatchOf input with
  | some m =>
    let r := handleCEPAction env s m
    match r.2 with
    | some d =>
      let base := joinAddress d
      { (addMessage r.1 .bot ("Encontrei o endereco:\n*" ++ base ++
          "*\n\nAgora informe o **numero da casa** e complemento.")) with
        pendingAddress := base, flowStep := FlowStep.ask_address_number }
    | none => r.1
  | none =>
    let av := validateAddress input
    if av.valid = false ∧ av.missing = some AddressMissing.all then
      addMessage (notify s .error (av.error.getD "Endereco invalido") true) .bot
        ((av.error.getD "") ++ " Tente novamente.")
    else
      showReviewMessage
        (addMessage { s with userData := { s.userData with address := input },
                             editField := none, flowStep := FlowStep.review } .bot
          "Endereco atualizado!")
        { s.userData with address := input }

/-- The `edit_info`/`editField === 'payment'` block of App.tsx lines 284-298. -/
def editPaymentBranch (s : AppState) (input : String) : AppState :=
  let pv := validatePaymentMethod input
  if pv.valid = false then
    notify s .error (pv.error.getD "Forma de pagamento invalida") true
  else
    showReviewMessage
      (addMessage { s with userData := { s.userData with paymentMethod := input },
                           editField := none, flowStep := FlowStep.review } .bot
        ("Forma de pagamento atualizada para *" ++ input ++ "*!"))
      { s.userData with paymentMethod := input }

/-- The `ask_name` block of App.tsx lines 303-316. -/
def askNameBranch (s : AppState) (input : String) : AppState :=
  let nv := validateName input
  if nv.valid = false then
    addMessage (notify s .warning (nv.error.getD "Nome invalido") true) .bot
      (nv.error.getD "Por favor, digite um nome valido.")
  else
    { (addMessage { s with userData := { s.userData with name := nv.cleanName } } .bot
        ("Prazer, *" ++ nv.cleanName ++
         "*!\nQual o **endereco de entrega**? (Digite o CEP ou Nome da Rua)")) with
      flowStep := FlowStep.ask_address }

/-- The `ask_address` block of App.tsx lines 318-361. -/
def askAddressBranch (env : FlowEnv) (s : AppState) (input : String) : AppState :=
  match cepMatchOf input with
  | some m =>
    let r := handleCEPAction env s m
    match r.2 with
    | some d =>
      let base := joinAddress d
      { (addMessage r.1 .bot ("Encontrei o endereco:\n*" ++ base ++
          "*\n\n**Este endereco esta correto?**\nResponda *SIM* para confirmar ou *NAO* para digitar outro.")) with
        pendingAddress := base, flowStep := FlowStep.confirm_address }
    | none =>
      addMessage r.1 .bot "Nao consegui encontrar o CEP. Tente digitar o endereco completo."
  | none =>
    let av := validateAddress input
    if av.valid = false ∧ av.missing = some AddressMissing.all then
      addMessage (notify s .warning "Endereco muito curto" true) .bot
        "O endereco parece muito curto. Por favor, digite Rua, Bairro e Cidade."
    else if av.valid = false ∧ av.missing = some AddressMissing.number then
      { (addMessage { s with pendingAddress := input } .bot
          "Entendi a rua! Agora preciso do **numero da casa**.") with
        flowStep := FlowStep.ask_address_number }
    else
      { (addMessage { s with userData := { s.userData with address := input } } .bot
          "Anotado!\nComo voce prefere **pagar**?") with
        flowStep := FlowStep.ask_payment }

/-- `positiveResponses` of App.tsx line 365. -/
def positiveResponses : List String :=
  ["sim", "s", "yes", "confirmo", "correto", "isso", "certo", "ok", "confirmar"]

/-- `negativeResponses` of App.tsx line 366. -/
def negativeResponses : List String :=
  ["nao", "não", "n", "no", "errado", "nope", "negativo", "outro"]

/-- The `confirm_address` block of App.tsx lines 363-384. -/
def confirmAddressBranch (s : AppState) (input : String) : AppState :=
  let response : List Char := jsTrim (input.data.map jsToLower)
  if positiveResponses.any (fun v => response == v.data) then
    { (addMessage s .bot
        "Otimo! Agora informe o **numero da casa** e complemento (ex: 123, Apto 45).") with
      flowStep := FlowStep.ask_address_number }
  else if negativeResponses.any (fun v => response == v.data) then
    { (addMessage { s with pendingAddress := "" } .bot
        "Sem problemas! Digite o endereco completo ou outro CEP.") with
      flowStep := FlowStep.ask_address }
  else
    addMessage s .bot "Por favor, responda *SIM* para confirmar ou *NAO* para digitar outro endereco."

/-- The `ask_address_number` block of App.tsx lines 386-404. -/
def askAddressNumberBranch (s : AppState) (input : String) : AppState :=
  let nv := validateAddressNumber input
  if nv.valid = false then
    addMessage (notify s .warning (nv.error.getD "Numero invalido") true) .bot
      (nv.error.getD "Por favor, digite o numero da casa.")
  else
    let finalAddress :=
      if s.pendingAddress ≠ "" then s.pendingAddress ++ ", N " ++ input
      else s.userData.address ++ ", N " ++ input
    { (addMessage { s with userData := { s.userData with address := finalAddress },
                           pendingAddress := "" } .bot
        "Endereco completo!\nQual a **forma de pagamento**?") with
      flowStep := FlowStep.ask_payment }

/-- The `ask_payment` block of App.tsx lines 406-419 (note: `editField` is
not reset here). -/
def askPaymentBranch (s : AppState) (input : String) : AppState :=
  let pv := validatePaymentMethod input
  if pv.valid = false then
    addMessage (notify s .warning "Selecione uma forma de pagamento" true) .bot
      "Por favor, escolha: Pix, Cartao ou Dinheiro."
  else
    showReviewMessage
      { s with userData := { s.userData with paymentMethod := input },
               flowStep := FlowStep.review }
      { s.userData with paymentMethod := input }

/-- The generative-AI fall-through of App.tsx lines 421-432 (the 5-message
history slice only feeds the fetch oracle and is elided). -/
def orderingBranch (env : FlowEnv) (s : AppState) (input : String) : AppState :=
  if s.isOnline = false then
    addMessage s .bot "Estou sem conexao no momento. Use os botoes do cardapio para fazer seu pedido!"
  else
    addMessage s .bot (sendMessage input env.fetchOutcomes).reply

/-- `handleBotResponse` of App.tsx lines 222-439: sanitize, short-circuit on
an empty result, then dispatch on the flow step exactly in source order; any
step not handled above (ordering, review, finished, or `edit_info` without an
edit target) falls through to the response adapter. -/
def handleBotResponse (env : FlowEnv) (s : AppState) (userText : String) : AppState :=
  let input := sanitizeDisplayText userText
  if input = "" then
    addMessage s .bot "Desculpe, nao entendi. Pode repetir?"
  else if s.flowStep = FlowStep.edit_info ∧ s.editField = some EditField.name then
    editNameBranch s input
  else if s.flowStep = FlowStep.edit_info ∧ s.editField = some EditField.address then
    editAddressBranch env s input
  else if s.flowStep = FlowStep.edit_info ∧ s.editField = some EditField.payment then
    editPaymentBranch s input
  else if s.flowStep = FlowStep.ask_name then
    askNameBranch s input
  else if s.flowStep = FlowStep.ask_address then
    askAddressBranch env s input
  else if s.flowStep = FlowStep.confirm_address then
    confirmAddressBranch s input
  else if s.flowStep = FlowStep.ask_address_number then
    askAddressNumberBranch s input
  else if s.flowStep = FlowStep.ask_payment then
    askPaymentBranch s input
  else
    orderingBranch env s input

/-- `handleSend` of App.tsx lines 446-457 for a text submission: blank input
is not submitted; otherwise the user message is appended and the dispatcher
runs. -/
def submitText (env : FlowEnv) (s : AppState) (text : String) : AppState :=
  if jsTrim text.data = [] then s
  else handleBotResponse env (addMessage s .user text) text

/-- The `edit_info` quick-action buttons of App.tsx lines 865-880: select the
field to edit (the payment button also jumps to `ask_payment`). -/
def pressEditField (s : AppState) (f : EditField) : AppState :=
  match f with
  | .name => addMessage { s with editField := some EditField.name } .bot "Digite o novo nome:"
  | .address =>
    addMessage { s with editField := some EditField.address } .bot "Digite o novo endereco ou CEP:"
  | .payment =>
    addMessage { s with editField := some EditField.payment, flowStep := FlowStep.ask_payment } .bot
      "Escolha a forma de pagamento:"

/-- `goBackToEditing` of App.tsx lines 481-484. -/
def goBackToEditing (s : AppState) : AppState :=
  addMessage { s with flowStep := FlowStep.edit_info } .bot
    ("*SUAS INFORMACOES ATUAIS:*\n\n*Nome:* " ++ s.userData.name ++
     "\n*Endereco:* " ++ s.userData.address ++ "\n*Pagamento:* " ++ s.userData.paymentMethod ++
     "\n\nO que deseja alterar? Clique em uma opcao abaixo.")

/-- One editing round started from any state: return to the editing menu,
select the field, submit the value. -/
def editRound (env : FlowEnv) (f : EditField) (v : String) (s : AppState) : AppState :=
  submitText env (pressEditField (goBackToEditing s) f) v

/-- `startCheckoutFlow` of App.tsx lines 459-471 (the delayed greeting is
appended directly; the typing indicator does not affect state). -/
def startCheckoutFlow (s : AppState) : AppState :=
  if s.cart = [] then
    addMessage s .bot "Seu carrinho esta vazio! Adicione itens antes de finalizar."
  else
    { (addMessage (addMessage s .user "Fechar meu Pedido") .bot
        "Perfeito! Vamos fechar seu pedido.\n\nPrimeiro, qual e o seu **nome**?") with
      flowStep := FlowStep.ask_name }

/-- `startRedirection` of App.tsx lines 578-623 up to the WhatsApp handoff:
the two validation gates, then the step becomes `finished` (the progress
timer and the window handoff are presentation). -/
def startRedirection (s : AppState) : AppState :=
  if s.userData.name = "" ∨ s.userData.address = "" ∨ s.userData.paymentMethod = "" then
    { notify s .error "Dados incompletos. Por favor, preencha todas as informacoes." true with
      flowStep := FlowStep.edit_info }
  else if s.cart = [] then
    { notify s .error "Carrinho vazio. Adicione itens antes de finalizar." true with
      flowStep := FlowStep.ordering }
  else
    { s with flowStep := FlowStep.finished }

/-- A concrete environment: the ViaCEP directory knows the code 01001000
(Praça da Sé) and nothing else; the text endpoint always fails. -/
def envSP : FlowEnv :=
  { cepLookup := fun c =>
      if c = "01001000" then
        CepLookupOutcome.found
          { logradouro := "Praça da Sé", bairro := "Sé", localidade := "São Paulo", uf := "SP" }
      else CepLookupOutcome.notFound,
    fetchOutcomes := fun _ => FetchOutcome.netFail }

/-- A concrete state sitting in the editing sub-mode with the address field
selected: cart has one burger and the profile is complete. -/
def editAddrState : AppState :=
  { messages := [], cart := [{ toMenuItem := xburger, quantity := 1 }],
    userData := { name := "Ana", address := "Rua A, 10", paymentMethod := "Pix" },
    pendingAddress := "", flowStep := FlowStep.edit_info,
    editField := some EditField.address, notifications := [], isOnline := true }

/-- A sample visible notification. -/
def sampleNotif : Notification :=
  { id := 0, type := NotifType.info, message := "oi", dismissible := true }

/-! ## Theorems -/

theorem cepDigits_digits (cep : String) : ∀ c ∈ cepDigits cep, c.isDigit = true :=
  fun _ hc => (List.mem_filter.mp hc).2

theorem repeated_pats_iff {d : List Char} (h8 : d.length = 8)
    (hd : ∀ c ∈ d, c.isDigit = true) :
    (patAllZeros d || patAllOnes d || patRepeated d) = true ↔
      ∃ ch : Char, d = List.replicate 8 ch := by
  constructor
  · intro h
    simp only [Bool.or_eq_true] at h
    rcases h with (h | h) | h
    · simp only [patAllZeros, Bool.and_eq_true, List.all_eq_true] at h
      refine ⟨'0', List.eq_replicate_iff.mpr ⟨h8, fun b hb => ?_⟩⟩
      simpa using h.2 b hb
    · simp only [patAllOnes, Bool.and_eq_true, List.all_eq_true] at h
      refine ⟨'1', List.eq_replicate_iff.mpr ⟨h8, fun b hb => ?_⟩⟩
      simpa using h.2 b hb
    · cases d with
      | nil => simp [patRepeated] at h
      | cons c rest =>
        refine ⟨c, List.eq_replicate_iff.mpr ⟨h8, fun b hb => ?_⟩⟩
        simp only [patRepeated, Bool.and_eq_true, List.all_eq_true] at h
        rcases List.mem_cons.mp hb with rfl | hb
        · rfl
        · simpa using h.2 b hb
  · rintro ⟨ch, rfl⟩
    have hch : ch.isDigit = true := hd ch (by simp)
    simp only [Bool.or_eq_true]
    refine Or.inr ?_
    have hrep : List.replicate 8 ch = ch :: List.replicate 7 ch := rfl
    rw [hrep]
    simp [patRepeated, hch]

theorem firstDigitVal_le {d : List Char} (hd : ∀ c ∈ d, c.isDigit = true) :
    firstDigitVal d ≤ 9 := by
  cases d with
  | nil => simp [firstDigitVal]
  | cons c rest =>
    have h := hd c (by simp)
    simp only [Char.isDigit, Bool.and_eq_true, decide_eq_true_eq] at h
    have h57 : c.toNat ≤ 57 := h.2
    simp only [firstDigitVal]
    have : '0'.toNat = 48 := rfl
    omega

/-- C1: for every input string, `validateCEP` returns valid iff, after
stripping all non-digit characters, exactly 8 digits remain and the digit
string is not a single repeated digit (which covers all-zero and all-one),
not the ascending sequence 12345678 and not the descending sequence 87654321;
on the valid result `cleanCEP` is the normalized 8-digit string. -/
theorem validateCEP_valid_iff (cep : String) :
    ((validateCEP cep).valid = true ↔
      ((cepDigits cep).length = 8 ∧ (∀ ch : Char, cepDigits cep ≠ List.replicate 8 ch) ∧
        cepDigits cep ≠ "12345678".data ∧ cepDigits cep ≠ "87654321".data))
    ∧ ((validateCEP cep).valid = true → (validateCEP cep).cleanCEP = ⟨cepDigits cep⟩) := by
  have hd := cepDigits_digits cep
  by_cases h0 : cep = ""
  · subst h0
    have hnil : cepDigits "" = [] := rfl
    constructor
    · rw [hnil]
      simp [validateCEP]
    · intro h
      simp [validateCEP] at h
  · simp only [validateCEP, if_neg h0]
    by_cases h1 : (cepDigits cep).length = 0
    · simp only [if_pos h1]
      constructor
      · constructor
        · intro h; simp at h
        · rintro ⟨h8, -⟩; omega
      · intro h; simp at h
    · simp only [if_neg h1]
      by_cases h2 : (cepDigits cep).length ≠ 8
      · simp only [if_pos h2]
        constructor
        · constructor
          · intro h; simp at h
          · rintro ⟨h8, -⟩; exact absurd h8 h2
        · intro h; simp at h
      · push_neg at h2
        simp only [if_neg (by omega : ¬(cepDigits cep).length ≠ 8)]
        by_cases h3 : (patAllZeros (cepDigits cep) || patAllOnes (cepDigits cep)
            || patRepeated (cepDigits cep) || decide (cepDigits cep = "12345678".data)
            || decide (cepDigits cep = "87654321".data)) = true
        · rw [if_pos h3]
          constructor
          · constructor
            · intro h; simp at h
            · rintro ⟨-, hrep, hasc, hdesc⟩
              simp only [Bool.or_eq_true] at h3
              rcases h3 with ((h | h) | h) | h
              · obtain ⟨ch, hch⟩ := (repeated_pats_iff h2 hd).mp (by simp [h])
                exact absurd hch (hrep ch)
              · obtain ⟨ch, hch⟩ := (repeated_pats_iff h2 hd).mp (by simp [h])
                exact absurd hch (hrep ch)
              · exact absurd (of_decide_eq_true h) hasc
              · exact absurd (of_decide_eq_true h) hdesc
          · intro h; simp at h
        · rw [if_neg h3]
          have h4 : ¬ firstDigitVal (cepDigits cep) > 9 := by
            have := firstDigitVal_le hd
            omega
          rw [if_neg h4]
          refine ⟨⟨fun _ => ⟨h2, ?_, ?_, ?_⟩, fun _ => rfl⟩, fun _ => rfl⟩
          · intro ch hch
            apply h3
            have hp := (repeated_pats_iff h2 hd).mpr ⟨ch, hch⟩
            simp only [Bool.or_eq_true] at hp ⊢
            tauto
          · intro hasc
            apply h3
            simp only [Bool.or_eq_true, decide_eq_true_eq]
            tauto
          · intro hdesc
            apply h3
            simp only [Bool.or_eq_true, decide_eq_true_eq]
            tauto

/-- Witness for C1 at a concrete input: "01001-000" is accepted and normalized
to "01001000". -/
theorem validateCEP_valid_iff_witness :
    (validateCEP "01001-000").valid = true ∧
      (validateCEP "01001-000").cleanCEP = ⟨cepDigits "01001-000"⟩ :=
  ⟨by decide, (validateCEP_valid_iff "01001-000").2 (by decide)⟩

theorem attemptLoop_fail_zero (outcomes : Nat → FetchOutcome) (a : Nat)
    (h : retriableFail (outcomes a)) :
    attemptLoop outcomes 0 a = (none, 1, []) := by
  rw [attemptLoop]
  cases ho : outcomes a with
  | ok body => rw [ho] at h; simp only [retriableFail] at h; simp [h]
  | httpFail st =>
    rw [ho] at h; simp only [retriableFail] at h
    have : ¬(400 ≤ st ∧ st < 500) := by omega
    simp [this]
  | netFail => simp
  | timeout => simp

theorem attemptLoop_fail_step (outcomes : Nat → FetchOutcome) (r a : Nat)
    (h : retriableFail (outcomes a)) :
    attemptLoop outcomes (r + 1) a =
      ((attemptLoop outcomes r (a + 1)).1,
       (attemptLoop outcomes r (a + 1)).2.1 + 1,
       retryDelay * 2 ^ a :: (attemptLoop outcomes r (a + 1)).2.2) := by
  rw [attemptLoop]
  cases ho : outcomes a with
  | ok body => rw [ho] at h; simp only [retriableFail] at h; simp [h]
  | httpFail st =>
    rw [ho] at h; simp only [retriableFail] at h
    have : ¬(400 ≤ st ∧ st < 500) := by omega
    simp [this]
  | netFail => simp
  | timeout => rw [ho] at h; simp only [retriableFail] at h

/-- C2: with a sanitized non-empty message, if every attempt of the
text-generation endpoint fails transiently (transport error, non-4xx HTTP
failure, or invalid body), `sendMessage` makes exactly 3 fetch attempts
(initial plus 2 retries) with backoff delays of 1000 ms then 2000 ms before
returning the local fallback reply; if instead the first attempt fails with a
timeout/abort or with a 4xx HTTP status, exactly 1 attempt is made and the
local fallback reply is returned with no backoff. -/
theorem sendMessage_retry_bound (message : String) (outcomes : Nat → FetchOutcome)
    (hne : sanitizeInput message ≠ "") :
    ((∀ i, i < 3 → retriableFail (outcomes i)) →
      sendMessage message outcomes =
        { reply := getLocalResponse (sanitizeInput message), attempts := 3,
          delays := [1000, 2000] })
    ∧ ((outcomes 0 = .timeout ∨ ∃ st, outcomes 0 = .httpFail st ∧ 400 ≤ st ∧ st < 500) →
      sendMessage message outcomes =
        { reply := getLocalResponse (sanitizeInput message), attempts := 1, delays := [] }) := by
  constructor
  · intro hall
    have h2 : attemptLoop outcomes 0 2 = (none, 1, []) :=
      attemptLoop_fail_zero outcomes 2 (hall 2 (by omega))
    have h1 : attemptLoop outcomes 1 1 = (none, 2, [retryDelay * 2 ^ 1]) := by
      rw [attemptLoop_fail_step outcomes 0 1 (hall 1 (by omega)), h2]
    have h0 : attemptLoop outcomes 2 0 =
        (none, 3, [retryDelay * 2 ^ 0, retryDelay * 2 ^ 1]) := by
      rw [attemptLoop_fail_step outcomes 1 0 (hall 0 (by omega)), h1]
    simp only [sendMessage, if_neg hne, maxRetries, h0]
    norm_num [retryDelay]
  · intro hfirst
    have h0 : attemptLoop outcomes 2 0 = (none, 1, []) := by
      rw [attemptLoop]
      rcases hfirst with h | ⟨st, h, hst⟩
      · rw [h]
      · rw [h]; simp [hst]
    simp only [sendMessage, if_neg hne, maxRetries, h0]

/-- Witness for C2: the message "ola" against an endpoint whose every attempt
is a transport failure yields 3 attempts, delays 1000 and 2000 ms, and the
local fallback reply. -/
theorem sendMessage_retry_bound_witness :
    sanitizeInput "ola" ≠ "" ∧
      sendMessage "ola" (fun _ => FetchOutcome.netFail) =
        { reply := getLocalResponse (sanitizeInput "ola"), attempts := 3,
          delays := [1000, 2000] } :=
  ⟨by decide,
    (sendMessage_retry_bound "ola" (fun _ => FetchOutcome.netFail) (by decide)).1
      (fun i _ => by simp [retriableFail])⟩

/-- C10: for every input string whose sanitized form is empty, `sendMessage`
returns the fixed apology reply with zero fetch attempts and no backoff, so
neither the network nor the local keyword responder is consulted. -/
theorem sendMessage_empty_sanitized (message : String) (outcomes : Nat → FetchOutcome)
    (h : sanitizeInput message = "") :
    sendMessage message outcomes =
      { reply := "Desculpe, nao entendi. Pode repetir?", attempts := 0, delays := [] } := by
  simp [sendMessage, h]

/-- Witness for C10: the input consisting only of angle brackets sanitizes to
the empty string and short-circuits to the apology reply. -/
theorem sendMessage_empty_sanitized_witness :
    sanitizeInput "<>" = "" ∧
      sendMessage "<>" (fun _ => FetchOutcome.netFail) =
        { reply := "Desculpe, nao entendi. Pode repetir?", attempts := 0, delays := [] } :=
  ⟨by decide, sendMessage_empty_sanitized "<>" (fun _ => FetchOutcome.netFail) (by decide)⟩

theorem foldl_add_eq_sum (f : CartItem → ℚ) (l : List CartItem) (a : ℚ) :
    l.foldl (fun acc i => acc + f i) a = a + (l.map f).sum := by
  induction l generalizing a with
  | nil => simp
  | cons x t ih => simp [ih, add_assoc]

/-- C3: for every cart, the derived subtotal is the sum over line items of
unit price times quantity, the total is subtotal plus the delivery fee
whenever the subtotal is positive, and the empty cart has total 0 (no bare
fee). -/
theorem cart_totals (cart : List CartItem) :
    subtotalValue cart = (cart.map (fun i => i.price * (i.quantity : ℚ))).sum
    ∧ (0 < subtotalValue cart → totalValue cart = subtotalValue cart + DELIVERY_FEE)
    ∧ (cart = [] → totalValue cart = 0) := by
  refine ⟨?_, ?_, ?_⟩
  · simpa using foldl_add_eq_sum (fun i => i.price * (i.quantity : ℚ)) cart 0
  · intro h
    simp [totalValue, h]
  · rintro rfl
    simp [totalValue, subtotalValue]

/-- Witness for C3 at the spec scenario: one classic burger at 25.00 with
quantity 2 gives subtotal 50.00 and total 57.00. -/
theorem cart_totals_witness :
    0 < subtotalValue [{ toMenuItem := xburger, quantity := 2 }]
    ∧ totalValue [{ toMenuItem := xburger, quantity := 2 }] =
        subtotalValue [{ toMenuItem := xburger, quantity := 2 }] + DELIVERY_FEE :=
  ⟨by norm_num [subtotalValue, xburger],
   (cart_totals [{ toMenuItem := xburger, quantity := 2 }]).2.1
     (by norm_num [subtotalValue, xburger])⟩

theorem addToCart_inv {cart : List CartItem} (item : MenuItem) (h : CartInv cart) :
    CartInv (addToCart item cart) := by
  obtain ⟨hq, hnd⟩ := h
  unfold addToCart
  cases hf : cart.find? (fun i => i.id == item.id) with
  | none =>
    refine ⟨?_, ?_⟩
    · intro i hi
      rcases List.mem_append.mp hi with hi | hi
      · exact hq i hi
      · have : i = { toMenuItem := item, quantity := 1 } := by simpa using hi
        subst this
        exact ⟨Nat.le_refl 1, (by omega : (1:Nat) ≤ 99)⟩
    · have hnotin : ∀ a ∈ cart, a.id ≠ item.id := by
        intro a ha
        have := List.find?_eq_none.mp hf a ha
        simpa using this
      rw [List.map_append]
      refine List.Nodup.append hnd (List.nodup_singleton _) ?_
      intro x hx hx2
      rcases List.mem_map.mp hx with ⟨a, ha, rfl⟩
      simp only [List.map_cons, List.map_nil, List.mem_singleton] at hx2
      exact hnotin a ha hx2
  | some e =>
    dsimp only
    have he_mem : e ∈ cart := List.mem_of_find?_eq_some hf
    have he_id : e.id = item.id := by simpa using List.find?_some hf
    by_cases h99 : e.quantity ≥ 99
    · rw [if_pos h99]
      exact ⟨hq, hnd⟩
    · rw [if_neg h99]
      refine ⟨?_, ?_⟩
      · intro i hi
        rcases List.mem_map.mp hi with ⟨j, hj, rfl⟩
        by_cases hid : (j.id == item.id) = true
        · have hj_e : j = e := by
            apply List.inj_on_of_nodup_map hnd hj he_mem
            rw [he_id]
            simpa using hid
          have hje := hq j hj
          subst hj_e
          simp only [if_pos hid]
          constructor <;> omega
        · simp only [if_neg hid]
          exact hq j hj
      · have hmap : (cart.map (fun i =>
            if i.id == item.id then { i with quantity := i.quantity + 1 } else i)).map
              (fun i => i.id) = cart.map (fun i => i.id) := by
          rw [List.map_map]
          apply List.map_congr_left
          intro a _
          simp only [Function.comp_apply]
          split <;> rfl
        rw [hmap]
        exact hnd

theorem removeFromCart_inv {cart : List CartItem} (id : Nat) (h : CartInv cart) :
    CartInv (removeFromCart id cart) := by
  obtain ⟨hq, hnd⟩ := h
  unfold removeFromCart
  refine ⟨?_, ?_⟩
  · intro i hi
    have hi2 := List.mem_filter.mp hi
    have hpos : 0 < i.quantity := by simpa using hi2.2
    rcases List.mem_map.mp hi2.1 with ⟨j, hj, hji⟩
    have hub : i.quantity ≤ j.quantity := by
      rw [← hji]
      by_cases hid : (j.id == id) = true
      · simp only [if_pos hid]; omega
      · simp only [if_neg hid]; omega
    have := hq j hj
    constructor <;> omega
  · have hmap : (cart.map (fun i =>
        if i.id == id then { i with quantity := i.quantity - 1 } else i)).map
          (fun i => i.id) = cart.map (fun i => i.id) := by
      rw [List.map_map]
      apply List.map_congr_left
      intro a _
      simp only [Function.comp_apply]
      split <;> rfl
    have hnd2 : ((cart.map (fun i =>
        if i.id == id then { i with quantity := i.quantity - 1 } else i)).map
          (fun i => i.id)).Nodup := by
      rw [hmap]; exact hnd
    exact List.Nodup.sublist (List.Sublist.map _ (List.filter_sublist _)) hnd2

theorem runCart_inv (ops : List CartOp) : CartInv (runCart ops) := by
  have main : ∀ (l : List CartOp) (cart : List CartItem),
      CartInv cart → CartInv (l.foldl applyCartOp cart) := by
    intro l
    induction l with
    | nil => intro cart h; exact h
    | cons op t ih =>
      intro cart h
      simp only [List.foldl_cons]
      apply ih
      cases op with
      | add item => exact addToCart_inv item h
      | remove id => exact removeFromCart_inv id h
  exact main ops [] ⟨by simp, by simp⟩

/-- C4: starting from the empty cart, after any finite sequence of add/remove
operations every line item has quantity between 1 and 99; adding when the
existing line is at the 99 ceiling is a no-op; and removal never leaves a line
with quantity 0 or below (such lines are deleted). -/
theorem cart_quantity_invariant :
    (∀ ops : List CartOp, ∀ i ∈ runCart ops, 1 ≤ i.quantity ∧ i.quantity ≤ 99)
    ∧ (∀ (cart : List CartItem) (item : MenuItem) (e : CartItem),
        cart.find? (fun i => i.id == item.id) = some e → 99 ≤ e.quantity →
        addToCart item cart = cart)
    ∧ (∀ (id : Nat) (cart : List CartItem), ∀ i ∈ removeFromCart id cart, 1 ≤ i.quantity) := by
  refine ⟨?_, ?_, ?_⟩
  · intro ops i hi
    exact (runCart_inv ops).1 i hi
  · intro cart item e hf h99
    unfold addToCart
    rw [hf]
    dsimp only
    rw [if_pos (by omega : e.quantity ≥ 99)]
  · intro id cart i hi
    unfold removeFromCart at hi
    have := (List.mem_filter.mp hi).2
    have : 0 < i.quantity := by simpa using this
    omega

/-- Witness for C4: adding the classic burger twice yields the single line
with quantity 2, within bounds. -/
theorem cart_quantity_invariant_witness :
    ({ toMenuItem := xburger, quantity := 2 } : CartItem) ∈
        runCart [CartOp.add xburger, CartOp.add xburger]
    ∧ 1 ≤ ({ toMenuItem := xburger, quantity := 2 } : CartItem).quantity
    ∧ ({ toMenuItem := xburger, quantity := 2 } : CartItem).quantity ≤ 99 :=
  ⟨by decide,
   cart_quantity_invariant.1 [CartOp.add xburger, CartOp.add xburger]
     { toMenuItem := xburger, quantity := 2 } (by decide)⟩

@[simp] theorem addMessage_flowStep (s : AppState) (r : Role) (t : String) :
    (addMessage s r t).flowStep = s.flowStep := rfl

@[simp] theorem addMessage_editField (s : AppState) (r : Role) (t : String) :
    (addMessage s r t).editField = s.editField := rfl

@[simp] theorem addMessage_userData (s : AppState) (r : Role) (t : String) :
    (addMessage s r t).userData = s.userData := rfl

@[simp] theorem addMessage_pendingAddress (s : AppState) (r : Role) (t : String) :
    (addMessage s r t).pendingAddress = s.pendingAddress := rfl

@[simp] theorem addMessage_cart (s : AppState) (r : Role) (t : String) :
    (addMessage s r t).cart = s.cart := rfl

@[simp] theorem addMessage_notifications (s : AppState) (r : Role) (t : String) :
    (addMessage s r t).notifications = s.notifications := rfl

@[simp] theorem addMessage_isOnline (s : AppState) (r : Role) (t : String) :
    (addMessage s r t).isOnline = s.isOnline := rfl

@[simp] theorem notify_flowStep (s : AppState) (t : NotifType) (m : String) (d : Bool) :
    (notify s t m d).flowStep = s.flowStep := rfl

@[simp] theorem notify_userData (s : AppState) (t : NotifType) (m : String) (d : Bool) :
    (notify s t m d).userData = s.userData := rfl

@[simp] theorem notify_editField (s : AppState) (t : NotifType) (m : String) (d : Bool) :
    (notify s t m d).editField = s.editField := rfl

@[simp] theorem notify_pendingAddress (s : AppState) (t : NotifType) (m : String) (d : Bool) :
    (notify s t m d).pendingAddress = s.pendingAddress := rfl

@[simp] theorem notify_notifications (s : AppState) (t : NotifType) (m : String) (d : Bool) :
    (notify s t m d).notifications = showNotification s.notifications 0 t m d := rfl

@[simp] theorem showReviewMessage_flowStep (s : AppState) (d : UserData) :
    (showReviewMessage s d).flowStep = s.flowStep := rfl

@[simp] theorem showReviewMessage_userData (s : AppState) (d : UserData) :
    (showReviewMessage s d).userData = s.userData := rfl

@[simp] theorem showReviewMessage_editField (s : AppState) (d : UserData) :
    (showReviewMessage s d).editField = s.editField := rfl

@[simp] theorem showReviewMessage_pendingAddress (s : AppState) (d : UserData) :
    (showReviewMessage s d).pendingAddress = s.pendingAddress := rfl

@[simp] theorem goBackToEditing_flowStep (s : AppState) :
    (goBackToEditing s).flowStep = FlowStep.edit_info := rfl

@[simp] theorem goBackToEditing_userData (s : AppState) :
    (goBackToEditing s).userData = s.userData := rfl

@[simp] theorem goBackToEditing_editField (s : AppState) :
    (goBackToEditing s).editField = s.editField := rfl

@[simp] theorem pressEditField_name_editField (s : AppState) :
    (pressEditField s EditField.name).editField = some EditField.name := rfl

@[simp] theorem pressEditField_name_flowStep (s : AppState) :
    (pressEditField s EditField.name).flowStep = s.flowStep := rfl

@[simp] theorem pressEditField_name_userData (s : AppState) :
    (pressEditField s EditField.name).userData = s.userData := rfl

@[simp] theorem pressEditField_address_editField (s : AppState) :
    (pressEditField s EditField.address).editField = some EditField.address := rfl

@[simp] theorem pressEditField_address_flowStep (s : AppState) :
    (pressEditField s EditField.address).flowStep = s.flowStep := rfl

@[simp] theorem pressEditField_address_userData (s : AppState) :
    (pressEditField s EditField.address).userData = s.userData := rfl

@[simp] theorem pressEditField_payment_editField (s : AppState) :
    (pressEditField s EditField.payment).editField = some EditField.payment := rfl

@[simp] theorem pressEditField_payment_flowStep (s : AppState) :
    (pressEditField s EditField.payment).flowStep = FlowStep.ask_payment := rfl

@[simp] theorem pressEditField_payment_userData (s : AppState) :
    (pressEditField s EditField.payment).userData = s.userData := rfl

theorem sanitizeDisplayText_eq_empty_of {v : String} (h : jsTrim v.data = []) :
    sanitizeDisplayText v = "" := by
  unfold sanitizeDisplayText
  by_cases hv : v = ""
  · rw [if_pos hv]
  · rw [if_neg hv, h]
    rfl

theorem submitText_eq {env : FlowEnv} {s : AppState} {v : String}
    (hne : sanitizeDisplayText v ≠ "") :
    submitText env s v = handleBotResponse env (addMessage s .user v) v := by
  unfold submitText
  rw [if_neg (fun h => hne (sanitizeDisplayText_eq_empty_of h))]

theorem handleBotResponse_editName {env : FlowEnv} {s : AppState} {v : String}
    (hne : sanitizeDisplayText v ≠ "") (hs : s.flowStep = FlowStep.edit_info)
    (hf : s.editField = some EditField.name) :
    handleBotResponse env s v = editNameBranch s (sanitizeDisplayText v) := by
  unfold handleBotResponse
  simp [hne, hs, hf]

theorem handleBotResponse_editAddress {env : FlowEnv} {s : AppState} {v : String}
    (hne : sanitizeDisplayText v ≠ "") (hs : s.flowStep = FlowStep.edit_info)
    (hf : s.editField = some EditField.address) :
    handleBotResponse env s v = editAddressBranch env s (sanitizeDisplayText v) := by
  unfold handleBotResponse
  simp [hne, hs, hf]

theorem handleBotResponse_editPayment {env : FlowEnv} {s : AppState} {v : String}
    (hne : sanitizeDisplayText v ≠ "") (hs : s.flowStep = FlowStep.edit_info)
    (hf : s.editField = some EditField.payment) :
    handleBotResponse env s v = editPaymentBranch s (sanitizeDisplayText v) := by
  unfold handleBotResponse
  simp [hne, hs, hf]

theorem handleBotResponse_askPayment {env : FlowEnv} {s : AppState} {v : String}
    (hne : sanitizeDisplayText v ≠ "") (hs : s.flowStep = FlowStep.ask_payment) :
    handleBotResponse env s v = askPaymentBranch s (sanitizeDisplayText v) := by
  unfold handleBotResponse
  simp [hne, hs]

theorem editNameBranch_valid {s : AppState} {input : String}
    (hv : (validateName input).valid = true) :
    (editNameBranch s input).flowStep = FlowStep.review
    ∧ (editNameBranch s input).userData =
        { s.userData with name := (validateName input).cleanName }
    ∧ (editNameBranch s input).editField = none := by
  unfold editNameBranch
  simp [hv]

theorem editAddressBranch_freeText {env : FlowEnv} {s : AppState} {input : String}
    (hm : cepMatchOf input = none)
    (ha : (validateAddress input).missing ≠ some AddressMissing.all) :
    (editAddressBranch env s input).flowStep = FlowStep.review
    ∧ (editAddressBranch env s input).userData = { s.userData with address := input }
    ∧ (editAddressBranch env s input).editField = none := by
  unfold editAddressBranch
  rw [hm]
  have hcond : ¬((validateAddress input).valid = false ∧
      (validateAddress input).missing = some AddressMissing.all) := by
    intro h
    exact ha h.2
  simp [hcond]

theorem editAddressBranch_cep {env : FlowEnv} {s : AppState} {input m : String}
    {d : ViaCepData}
    (hm : cepMatchOf input = some m)
    (hv : (validateCEP m).valid = true)
    (hon : s.isOnline = true)
    (hlk : env.cepLookup (validateCEP m).cleanCEP = CepLookupOutcome.found d)
    (hdat : ¬(d.logradouro = "" ∧ d.bairro = "" ∧ d.localidade = "")) :
    (editAddressBranch env s input).flowStep = FlowStep.ask_address_number
    ∧ (editAddressBranch env s input).userData = s.userData
    ∧ (editAddressBranch env s input).pendingAddress = joinAddress d := by
  have hcep : handleCEPAction env s m = (s, some d) := by
    unfold handleCEPAction
    simp [hv, hon, hlk, hdat]
  unfold editAddressBranch
  rw [hm]
  simp [hcep]

theorem editPaymentBranch_valid {s : AppState} {input : String}
    (hv : (validatePaymentMethod input).valid = true) :
    (editPaymentBranch s input).flowStep = FlowStep.review
    ∧ (editPaymentBranch s input).userData =
        { s.userData with paymentMethod := input }
    ∧ (editPaymentBranch s input).editField = none := by
  unfold editPaymentBranch
  simp [hv]

theorem askPaymentBranch_valid {s : AppState} {input : String}
    (hv : (validatePaymentMethod input).valid = true) :
    (askPaymentBranch s input).flowStep = FlowStep.review
    ∧ (askPaymentBranch s input).userData =
        { s.userData with paymentMethod := input } := by
  unfold askPaymentBranch
  simp [hv]

theorem validateName_empty_not_valid : (validateName "").valid = false := by decide

theorem validatePaymentMethod_empty_not_valid :
    (validatePaymentMethod "").valid = false := by decide

theorem validateAddress_empty_missing_all :
    (validateAddress "").missing = some AddressMissing.all := by decide

/-- C5 counterexample: in the editing sub-mode targeting the address field,
submitting a valid postal code whose lookup succeeds is a successful
submission that does not return to `review` and stores nothing into
UserData — the flow moves to `ask_address_number` with the resolved street
held in the pending-address buffer. -/
theorem edit_address_cep_counterexample :
    editAddrState.flowStep = FlowStep.edit_info
    ∧ editAddrState.editField = some EditField.address
    ∧ (submitText envSP editAddrState "01001-000").flowStep = FlowStep.ask_address_number
    ∧ (submitText envSP editAddrState "01001-000").flowStep ≠ FlowStep.review
    ∧ (submitText envSP editAddrState "01001-000").userData = editAddrState.userData
    ∧ (submitText envSP editAddrState "01001-000").pendingAddress
        = "Praça da Sé, Sé, São Paulo - SP" := by
  refine ⟨rfl, rfl, ?_, ?_, ?_, ?_⟩ <;> decide

/-- C5 (amended): in the editing sub-mode (flowStep `edit_info` with an edit
target set), a valid name edit and a valid payment edit store the value into
UserData and return the flow directly to `review`; an address edit entered as
free text (no postal-code match, not failing the too-short check) does the
same; but an address edit entered as a postal code that resolves successfully
stores the resolved street only into the pending-address buffer and moves to
`ask_address_number`, re-entering the main collection sequence instead of
returning to `review`. -/
theorem edit_info_submission (env : FlowEnv) (s : AppState) (v : String)
    (hs : s.flowStep = FlowStep.edit_info) :
    (s.editField = some EditField.name →
      (validateName (sanitizeDisplayText v)).valid = true →
      (submitText env s v).flowStep = FlowStep.review
      ∧ (submitText env s v).userData =
          { s.userData with name := (validateName (sanitizeDisplayText v)).cleanName })
    ∧ (s.editField = some EditField.payment →
        (validatePaymentMethod (sanitizeDisplayText v)).valid = true →
        (submitText env s v).flowStep = FlowStep.review
        ∧ (submitText env s v).userData =
            { s.userData with paymentMethod := sanitizeDisplayText v })
    ∧ (s.editField = some EditField.address →
        cepMatchOf (sanitizeDisplayText v) = none →
        (validateAddress (sanitizeDisplayText v)).missing ≠ some AddressMissing.all →
        (submitText env s v).flowStep = FlowStep.review
        ∧ (submitText env s v).userData =
            { s.userData with address := sanitizeDisplayText v })
    ∧ (∀ (m : String) (d : ViaCepData), s.editField = some EditField.address →
        cepMatchOf (sanitizeDisplayText v) = some m →
        (validateCEP m).valid = true → s.isOnline = true →
        env.cepLookup (validateCEP m).cleanCEP = CepLookupOutcome.found d →
        ¬(d.logradouro = "" ∧ d.bairro = "" ∧ d.localidade = "") →
        (submitText env s v).flowStep = FlowStep.ask_address_number
        ∧ (submitText env s v).userData = s.userData
        ∧ (submitText env s v).pendingAddress = joinAddress d) := by
  refine ⟨?_, ?_, ?_, ?_⟩
  · intro hf hv
    have hne : sanitizeDisplayText v ≠ "" := by
      intro h
      rw [h, validateName_empty_not_valid] at hv
      exact Bool.false_ne_true hv
    rw [submitText_eq hne, handleBotResponse_editName hne (by simp [hs]) (by simp [hf])]
    obtain ⟨h1, h2, -⟩ := @editNameBranch_valid (addMessage s .user v) _ hv
    refine ⟨h1, ?_⟩
    rw [h2]
    simp
  · intro hf hv
    have hne : sanitizeDisplayText v ≠ "" := by
      intro h
      rw [h, validatePaymentMethod_empty_not_valid] at hv
      exact Bool.false_ne_true hv
    rw [submitText_eq hne, handleBotResponse_editPayment hne (by simp [hs]) (by simp [hf])]
    obtain ⟨h1, h2, -⟩ := @editPaymentBranch_valid (addMessage s .user v) _ hv
    refine ⟨h1, ?_⟩
    rw [h2]
    simp
  · intro hf hm ha
    have hne : sanitizeDisplayText v ≠ "" := by
      intro h
      exact ha (by rw [h]; exact validateAddress_empty_missing_all)
    rw [submitText_eq hne, handleBotResponse_editAddress hne (by simp [hs]) (by simp [hf])]
    obtain ⟨h1, h2, -⟩ := @editAddressBranch_freeText env (addMessage s .user v) _ hm ha
    refine ⟨h1, ?_⟩
    rw [h2]
    simp
  · intro m d hf hm hv hon hlk hdat
    have hne : sanitizeDisplayText v ≠ "" := by
      intro h
      rw [h] at hm
      rw [show cepMatchOf "" = none from by decide] at hm
      exact Option.noConfusion hm
    rw [submitText_eq hne, handleBotResponse_editAddress hne (by simp [hs]) (by simp [hf])]
    obtain ⟨h1, h2, h3⟩ := @editAddressBranch_cep env (addMessage s .user v) _ _ _ hm hv
      (by simp [hon]) hlk hdat
    refine ⟨h1, ?_, h3⟩
    rw [h2]
    simp

/-- Witness for C5 (amended) at a concrete state: editing the name to "Maria"
from the editing sub-mode stores the cleaned name and returns to review. -/
theorem edit_info_submission_witness :
    ({ editAddrState with editField := some EditField.name } : AppState).flowStep
        = FlowStep.edit_info
    ∧ (validateName (sanitizeDisplayText "Maria")).valid = true
    ∧ (submitText envSP { editAddrState with editField := some EditField.name }
        "Maria").flowStep = FlowStep.review
    ∧ (submitText envSP { editAddrState with editField := some EditField.name }
        "Maria").userData =
        { ({ editAddrState with editField := some EditField.name } : AppState).userData with
          name := (validateName (sanitizeDisplayText "Maria")).cleanName } := by
  have h := (edit_info_submission envSP
      { editAddrState with editField := some EditField.name } "Maria" (by decide)).1
    (by decide) (by decide)
  exact ⟨by decide, by decide, h.1, h.2⟩

theorem editRound_name {env : FlowEnv} {v : String} (s : AppState)
    (hv : (validateName (sanitizeDisplayText v)).valid = true) :
    (editRound env EditField.name v s).flowStep = FlowStep.review
    ∧ (editRound env EditField.name v s).userData =
        { s.userData with name := (validateName (sanitizeDisplayText v)).cleanName } := by
  have hne : sanitizeDisplayText v ≠ "" := by
    intro h
    rw [h, validateName_empty_not_valid] at hv
    exact Bool.false_ne_true hv
  unfold editRound
  rw [submitText_eq hne, handleBotResponse_editName hne (by simp) (by simp)]
  obtain ⟨h1, h2, -⟩ := @editNameBranch_valid
    (addMessage (pressEditField (goBackToEditing s) EditField.name) .user v) _ hv
  refine ⟨h1, ?_⟩
  rw [h2]
  simp

theorem editRound_address {env : FlowEnv} {v : String} (s : AppState)
    (hm : cepMatchOf (sanitizeDisplayText v) = none)
    (ha : (validateAddress (sanitizeDisplayText v)).missing ≠ some AddressMissing.all) :
    (editRound env EditField.address v s).flowStep = FlowStep.review
    ∧ (editRound env EditField.address v s).userData =
        { s.userData with address := sanitizeDisplayText v } := by
  have hne : sanitizeDisplayText v ≠ "" := by
    intro h
    exact ha (by rw [h]; exact validateAddress_empty_missing_all)
  unfold editRound
  rw [submitText_eq hne, handleBotResponse_editAddress hne (by simp) (by simp)]
  obtain ⟨h1, h2, -⟩ := @editAddressBranch_freeText env
    (addMessage (pressEditField (goBackToEditing s) EditField.address) .user v) _ hm ha
  refine ⟨h1, ?_⟩
  rw [h2]
  simp

theorem editRound_payment {env : FlowEnv} {v : String} (s : AppState)
    (hv : (validatePaymentMethod (sanitizeDisplayText v)).valid = true) :
    (editRound env EditField.payment v s).flowStep = FlowStep.review
    ∧ (editRound env EditField.payment v s).userData =
        { s.userData with paymentMethod := sanitizeDisplayText v } := by
  have hne : sanitizeDisplayText v ≠ "" := by
    intro h
    rw [h, validatePaymentMethod_empty_not_valid] at hv
    exact Bool.false_ne_true hv
  unfold editRound
  rw [submitText_eq hne, handleBotResponse_askPayment hne (by simp)]
  obtain ⟨h1, h2⟩ := @askPaymentBranch_valid
    (addMessage (pressEditField (goBackToEditing s) EditField.payment) .user v) _ hv
  refine ⟨h1, ?_⟩
  rw [h2]
  simp

/-- C7: entering the editing sub-mode for the same field and submitting the
same valid value twice (returning to review in between) leaves UserData and
FlowStep exactly as after a single edit-and-submit round, for each of the
three editable fields. -/
theorem edit_round_idempotent (env : FlowEnv) (v : String) (s : AppState) :
    ((validateName (sanitizeDisplayText v)).valid = true →
      (editRound env EditField.name v (editRound env EditField.name v s)).userData =
          (editRound env EditField.name v s).userData
      ∧ (editRound env EditField.name v (editRound env EditField.name v s)).flowStep =
          (editRound env EditField.name v s).flowStep)
    ∧ (cepMatchOf (sanitizeDisplayText v) = none →
        (validateAddress (sanitizeDisplayText v)).missing ≠ some AddressMissing.all →
        (editRound env EditField.address v (editRound env EditField.address v s)).userData =
            (editRound env EditField.address v s).userData
        ∧ (editRound env EditField.address v (editRound env EditField.address v s)).flowStep =
            (editRound env EditField.address v s).flowStep)
    ∧ ((validatePaymentMethod (sanitizeDisplayText v)).valid = true →
        (editRound env EditField.payment v (editRound env EditField.payment v s)).userData =
            (editRound env EditField.payment v s).userData
        ∧ (editRound env EditField.payment v (editRound env EditField.payment v s)).flowStep =
            (editRound env EditField.payment v s).flowStep) := by
  refine ⟨?_, ?_, ?_⟩
  · intro hv
    obtain ⟨hf1, hu1⟩ := @editRound_name env v s hv
    obtain ⟨hf2, hu2⟩ := @editRound_name env v (editRound env EditField.name v s) hv
    refine ⟨?_, by rw [hf2, hf1]⟩
    rw [hu2, hu1]
  · intro hm ha
    obtain ⟨hf1, hu1⟩ := @editRound_address env v s hm ha
    obtain ⟨hf2, hu2⟩ := @editRound_address env v
      (editRound env EditField.address v s) hm ha
    refine ⟨?_, by rw [hf2, hf1]⟩
    rw [hu2, hu1]
  · intro hv
    obtain ⟨hf1, hu1⟩ := @editRound_payment env v s hv
    obtain ⟨hf2, hu2⟩ := @editRound_payment env v
      (editRound env EditField.payment v s) hv
    refine ⟨?_, by rw [hf2, hf1]⟩
    rw [hu2, hu1]

/-- Witness for C7: editing the payment method to "Pix" twice equals editing
it once, on UserData and FlowStep. -/
theorem edit_round_idempotent_witness :
    (validatePaymentMethod (sanitizeDisplayText "Pix")).valid = true
    ∧ (editRound envSP EditField.payment "Pix"
          (editRound envSP EditField.payment "Pix" editAddrState)).userData =
        (editRound envSP EditField.payment "Pix" editAddrState).userData
    ∧ (editRound envSP EditField.payment "Pix"
          (editRound envSP EditField.payment "Pix" editAddrState)).flowStep =
        (editRound envSP EditField.payment "Pix" editAddrState).flowStep := by
  have h := (edit_round_idempotent envSP "Pix" editAddrState).2.2 (by decide)
  exact ⟨by decide, h.1, h.2⟩

theorem showNotification_mem_message (prev : List Notification) (now : Nat)
    (t : NotifType) (msg : String) (d : Bool) :
    ∃ n ∈ showNotification prev now t msg d, n.message = msg := by
  unfold showNotification
  by_cases h : prev.any (fun n => n.message == msg)
  · rw [if_pos h]
    rcases List.any_eq_true.mp h with ⟨n, hn, he⟩
    exact ⟨n, hn, by simpa using he⟩
  · rw [if_neg h]
    refine ⟨{ id := now, type := t, message := msg, dismissible := d }, ?_, rfl⟩
    exact List.mem_append_right _ (by simp)

/-- C6: checkout with an empty cart leaves the flow step unchanged (so it
never becomes `ask_name`); at redirection time a missing profile field routes
to `edit_info` and an otherwise-complete profile with an empty cart routes to
`ordering`, each with an error notification, and in neither failure case does
the step become `finished`. -/
theorem checkout_guards (s : AppState) :
    (s.cart = [] → (startCheckoutFlow s).flowStep = s.flowStep)
    ∧ (s.userData.name = "" ∨ s.userData.address = "" ∨ s.userData.paymentMethod = "" →
        (startRedirection s).flowStep = FlowStep.edit_info
        ∧ (startRedirection s).flowStep ≠ FlowStep.finished
        ∧ ∃ n ∈ (startRedirection s).notifications,
            n.message = "Dados incompletos. Por favor, preencha todas as informacoes.")
    ∧ (s.userData.name ≠ "" → s.userData.address ≠ "" → s.userData.paymentMethod ≠ "" →
        s.cart = [] →
        (startRedirection s).flowStep = FlowStep.ordering
        ∧ (startRedirection s).flowStep ≠ FlowStep.finished
        ∧ ∃ n ∈ (startRedirection s).notifications,
            n.message = "Carrinho vazio. Adicione itens antes de finalizar.") := by
  refine ⟨?_, ?_, ?_⟩
  · intro h
    unfold startCheckoutFlow
    rw [if_pos h]
    simp
  · intro h
    unfold startRedirection
    rw [if_pos h]
    refine ⟨rfl, by simp, ?_⟩
    exact showNotification_mem_message s.notifications 0 NotifType.error
      "Dados incompletos. Por favor, preencha todas as informacoes." true
  · intro h1 h2 h3 hc
    unfold startRedirection
    have hno : ¬(s.userData.name = "" ∨ s.userData.address = "" ∨
        s.userData.paymentMethod = "") := by
      push_neg
      exact ⟨h1, h2, h3⟩
    rw [if_neg hno, if_pos hc]
    refine ⟨rfl, by simp, ?_⟩
    exact showNotification_mem_message s.notifications 0 NotifType.error
      "Carrinho vazio. Adicione itens antes de finalizar." true

/-- Witness for C6 at concrete states: an empty cart keeps the step at
`ordering`-time checkout, a missing name routes redirection to `edit_info`,
and a complete profile with an empty cart routes redirection to `ordering`. -/
theorem checkout_guards_witness :
    (startCheckoutFlow { editAddrState with cart := [] }).flowStep =
        ({ editAddrState with cart := [] } : AppState).flowStep
    ∧ (startRedirection { editAddrState with
          userData := { name := "", address := "Rua A, 10", paymentMethod := "Pix" } }).flowStep
        = FlowStep.edit_info
    ∧ (startRedirection { editAddrState with cart := [] }).flowStep = FlowStep.ordering :=
  ⟨(checkout_guards { editAddrState with cart := [] }).1 rfl,
   ((checkout_guards _).2.1 (Or.inl rfl)).1,
   ((checkout_guards { editAddrState with cart := [] }).2.2 (by decide) (by decide)
      (by decide) rfl).1⟩

theorem showNotification_length_le {prev : List Notification} (now : Nat)
    (t : NotifType) (msg : String) (d : Bool) (h : prev.length ≤ 4) :
    (showNotification prev now t msg d).length ≤ 4 := by
  unfold showNotification
  by_cases hd : prev.any (fun n => n.message == msg)
  · rw [if_pos hd]
    exact h
  · rw [if_neg hd]
    rw [List.length_append, List.length_drop]
    simp
    omega

theorem runNotifs_length_le (ops : List NotifOp) : (runNotifs ops).length ≤ 4 := by
  have main : ∀ (l : List NotifOp) (prev : List Notification), prev.length ≤ 4 →
      (l.foldl applyNotifOp prev).length ≤ 4 := by
    intro l
    induction l with
    | nil => intro prev h; exact h
    | cons op t ih =>
      intro prev h
      simp only [List.foldl_cons]
      apply ih
      cases op with
      | showOp now ty msg d => exact showNotification_length_le now ty msg d h
      | dismissOp id => exact le_trans (List.length_filter_le _ prev) h
      | sweepOp now => exact le_trans (List.length_filter_le _ prev) h
  exact main ops [] (by simp)

/-- C9: the notification list reached by any sequence of show/dismiss/sweep
operations never holds more than 4 notifications; showing a message identical
to a visible one is a no-op; and showing a fresh message to a full list of 4
drops the oldest notification. -/
theorem notification_center_bound :
    (∀ ops : List NotifOp, (runNotifs ops).length ≤ 4)
    ∧ (∀ (prev : List Notification) (now : Nat) (t : NotifType) (msg : String) (d : Bool),
        (∃ n ∈ prev, n.message = msg) → showNotification prev now t msg d = prev)
    ∧ (∀ (prev : List Notification) (now : Nat) (t : NotifType) (msg : String) (d : Bool),
        prev.length = 4 → ¬(∃ n ∈ prev, n.message = msg) →
        showNotification prev now t msg d =
          prev.drop 1 ++ [{ id := now, type := t, message := msg, dismissible := d }]) := by
  refine ⟨runNotifs_length_le, ?_, ?_⟩
  · rintro prev now t msg d ⟨n, hn, he⟩
    unfold showNotification
    rw [if_pos (List.any_eq_true.mpr ⟨n, hn, by simp [he]⟩)]
  · intro prev now t msg d hlen hdup
    have hno : ¬ prev.any (fun n => n.message == msg) = true := by
      intro hany
      rcases List.any_eq_true.mp hany with ⟨n, hn, he⟩
      exact hdup ⟨n, hn, by simpa using he⟩
    unfold showNotification
    rw [if_neg hno, hlen]

/-- Witness for C9: showing the message "oi" while a notification with the
same message is visible leaves the list unchanged. -/
theorem notification_center_bound_witness :
    (∃ n ∈ [sampleNotif], n.message = "oi")
    ∧ showNotification [sampleNotif] 7 NotifType.error "oi" true = [sampleNotif] :=
  ⟨⟨sampleNotif, by simp, rfl⟩,
   notification_center_bound.2.1 [sampleNotif] 7 NotifType.error "oi" true
     ⟨sampleNotif, by simp, rfl⟩⟩

theorem dropWhile_tail_length_le (t : List Char) :
    (t.dropWhile isJsWs).tail.length ≤ t.length := by
  have ha : (t.dropWhile isJsWs).length ≤ t.length :=
    List.Sublist.length_le (List.dropWhile_sublist isJsWs)
  have hb : (t.dropWhile isJsWs).tail.length ≤ (t.dropWhile isJsWs).length := by
    cases t.dropWhile isJsWs <;> simp
  omega

theorem collapseGo_fuel : ∀ (f g : Nat) (l : List Char), l.length ≤ f → l.length ≤ g →
    collapseGo f l = collapseGo g l := by
  intro f
  induction f with
  | zero =>
    intro g l h1 _
    have h0 : l = [] := List.eq_nil_of_length_eq_zero (Nat.le_zero.mp h1)
    subst h0
    cases g <;> rfl
  | succ f ih =>
    intro g l h1 h2
    cases l with
    | nil => cases g <;> rfl
    | cons c t =>
      cases g with
      | zero => simp at h2
      | succ g =>
        simp only [collapseGo]
        simp only [List.length_cons] at h1 h2
        by_cases hc : c = ',' ∧ (t.dropWhile isJsWs).head? = some ','
        · rw [if_pos hc, if_pos hc]
          have hlen := dropWhile_tail_length_le t
          rw [ih g (t.dropWhile isJsWs).tail (by omega) (by omega)]
        · rw [if_neg hc, if_neg hc]
          rw [ih g t (by omega) (by omega)]

theorem collapseCommaRuns_cons_match {t : List Char}
    (h : (t.dropWhile isJsWs).head? = some ',') :
    collapseCommaRuns (',' :: t) = ',' :: collapseCommaRuns (t.dropWhile isJsWs).tail := by
  unfold collapseCommaRuns
  simp only [List.length_cons, collapseGo]
  rw [if_pos ⟨trivial, h⟩]
  rw [collapseGo_fuel t.length (t.dropWhile isJsWs).tail.length (t.dropWhile isJsWs).tail
    (dropWhile_tail_length_le t) (Nat.le_refl _)]

theorem collapseCommaRuns_cons_nomatch {c : Char} {t : List Char}
    (h : ¬(c = ',' ∧ (t.dropWhile isJsWs).head? = some ',')) :
    collapseCommaRuns (c :: t) = c :: collapseCommaRuns t := by
  unfold collapseCommaRuns
  simp only [List.length_cons, collapseGo]
  rw [if_neg h]

theorem collapse_of_not_cwc : ∀ (l : List Char), hasCWC l = false →
    collapseCommaRuns l = l := by
  intro l
  induction l with
  | nil => intro _; rfl
  | cons c t ih =>
    intro h
    have h2 : hasCWC t = false := by
      cases hh : hasCWC t
      · rfl
      · rw [hasCWC, hh] at h
        simp at h
    have h1 : ¬(c = ',' ∧ (t.dropWhile isJsWs).head? = some ',') := by
      rintro ⟨rfl, hh⟩
      rw [hasCWC] at h
      simp [hh] at h
    rw [collapseCommaRuns_cons_nomatch h1, ih h2]

theorem collapse_append_commaFree : ∀ (xs : List Char), commaFree xs → ∀ (ys : List Char),
    collapseCommaRuns (xs ++ ys) = xs ++ collapseCommaRuns ys := by
  intro xs
  induction xs with
  | nil => intro _ ys; simp
  | cons x xs ih =>
    intro hx ys
    have hx2 : commaFree xs := fun a ha => hx a (List.mem_cons_of_mem _ ha)
    have hxc : x ≠ ',' := hx x (List.mem_cons_self _ _)
    rw [List.cons_append, collapseCommaRuns_cons_nomatch (fun hh => hxc hh.1), ih hx2]
    rfl

theorem hasCWC_append_commaFree : ∀ (xs : List Char), commaFree xs → ∀ (ys : List Char),
    hasCWC (xs ++ ys) = hasCWC ys := by
  intro xs
  induction xs with
  | nil => intro _ ys; rfl
  | cons x xs ih =>
    intro hx ys
    have hx2 : commaFree xs := fun a ha => hx a (List.mem_cons_of_mem _ ha)
    have hxc : x ≠ ',' := hx x (List.mem_cons_self _ _)
    rw [List.cons_append]
    simp only [hasCWC]
    rw [ih hx2 ys]
    simp [hxc]

theorem hasCWC_of_commaFree (l : List Char) (h : commaFree l) : hasCWC l = false := by
  have := hasCWC_append_commaFree l h []
  simpa using this

theorem dropWhile_ws_append_ink : ∀ (xs : List Char), hasInk xs → ∀ (ys : List Char),
    (xs ++ ys).dropWhile isJsWs = xs.dropWhile isJsWs ++ ys := by
  intro xs
  induction xs with
  | nil => rintro ⟨x, hx, -⟩; simp at hx
  | cons x xs ih =>
    rintro ⟨y, hy, hyw⟩ ys
    by_cases hw : isJsWs x = true
    · rw [List.cons_append, List.dropWhile_cons, List.dropWhile_cons]
      rw [if_pos hw, if_pos hw]
      apply ih ?_ ys
      rcases List.mem_cons.mp hy with rfl | hy2
      · rw [hyw] at hw
        exact absurd hw (by simp)
      · exact ⟨y, hy2, hyw⟩
    · rw [List.cons_append, List.dropWhile_cons, List.dropWhile_cons]
      rw [if_neg hw, if_neg hw, List.cons_append]

theorem dropWhile_ws_ink_head : ∀ (xs : List Char), hasInk xs →
    ∃ y t, xs.dropWhile isJsWs = y :: t ∧ isJsWs y = false ∧ y ∈ xs := by
  intro xs
  induction xs with
  | nil => rintro ⟨x, hx, -⟩; simp at hx
  | cons x xs ih =>
    rintro ⟨y, hy, hyw⟩
    by_cases hw : isJsWs x = true
    · rw [List.dropWhile_cons, if_pos hw]
      have hink : hasInk xs := by
        rcases List.mem_cons.mp hy with rfl | hy2
        · rw [hyw] at hw
          exact absurd hw (by simp)
        · exact ⟨y, hy2, hyw⟩
      obtain ⟨z, t, h1, h2, h3⟩ := ih hink
      exact ⟨z, t, h1, h2, List.mem_cons_of_mem _ h3⟩
    · rw [List.dropWhile_cons, if_neg hw]
      exact ⟨x, xs, rfl, by simpa using hw, List.mem_cons_self _ _⟩

theorem splitComma_ne_nil : ∀ (l : List Char), splitComma l ≠ [] := by
  intro l
  induction l with
  | nil => simp [splitComma]
  | cons c t _ =>
    simp only [splitComma]
    by_cases hc : c = ','
    · rw [if_pos hc]
      simp
    · rw [if_neg hc]
      cases h : splitComma t with
      | nil => simp
      | cons s r => simp

theorem splitComma_comma (t : List Char) : splitComma (',' :: t) = [] :: splitComma t := by
  simp [splitComma]

theorem splitComma_cons_ne {c : Char} {t : List Char} (hc : c ≠ ',') {s : List Char}
    {r : List (List Char)} (h : splitComma t = s :: r) :
    splitComma (c :: t) = (c :: s) :: r := by
  simp only [splitComma, if_neg hc, h]

theorem splitComma_append_commaFree : ∀ (xs : List Char), commaFree xs →
    ∀ {ys : List Char} {s : List Char} {r : List (List Char)}, splitComma ys = s :: r →
    splitComma (xs ++ ys) = (xs ++ s) :: r := by
  intro xs
  induction xs with
  | nil =>
    intro _ ys s r h
    simpa using h
  | cons x xs ih =>
    intro hx ys s r h
    have hx2 : commaFree xs := fun a ha => hx a (List.mem_cons_of_mem _ ha)
    have hxs := ih hx2 h
    rw [List.cons_append]
    exact splitComma_cons_ne (hx x (List.mem_cons_self _ _)) hxs

theorem splitComma_commaFree (l : List Char) (h : commaFree l) : splitComma l = [l] := by
  have h0 : splitComma ([] : List Char) = [] :: [] := rfl
  have := splitComma_append_commaFree l h h0
  simpa using this

theorem hasSub_dbl_false : ∀ (l : List Char),
    ((splitComma l).tail.all (fun s => !s.isEmpty)) = true → hasSub l [',', ','] = false := by
  intro l
  induction l with
  | nil => intro _; rfl
  | cons c t ih =>
    intro h
    by_cases hc : c = ','
    · subst hc
      rw [splitComma_comma, List.tail_cons] at h
      cases hst : splitComma t with
      | nil => exact absurd hst (splitComma_ne_nil t)
      | cons s r =>
        rw [hst] at h
        have hs : s ≠ [] := by
          have := List.all_eq_true.mp h s (by simp)
          simpa using this
        have hpre : ([',', ','].isPrefixOf (',' :: t)) = false := by
          cases t with
          | nil => rfl
          | cons c2 t2 =>
            have hc2 : c2 ≠ ',' := by
              intro he
              subst he
              rw [splitComma_comma] at hst
              have : s = [] := by
                have := hst
                simp at this
                exact this.1
              exact hs this
            have hc2b : ¬(',' = c2) := fun he => hc2 he.symm
            simp [List.isPrefixOf, hc2b]
        rw [hasSub, hpre]
        simp only [Bool.false_eq_true, if_false]
        apply ih
        rw [hst, List.tail_cons]
        exact List.all_eq_true.mpr (fun x hx => List.all_eq_true.mp h x (List.mem_cons_of_mem _ hx))
    · cases hst : splitComma t with
      | nil => exact absurd hst (splitComma_ne_nil t)
      | cons s r =>
        rw [splitComma_cons_ne hc hst, List.tail_cons] at h
        have hpre : ([',', ','].isPrefixOf (c :: t)) = false := by
          have : (',' == c) = false := by
            simp
            intro he
            exact hc he.symm
          simp [List.isPrefixOf, this]
        rw [hasSub, hpre]
        simp only [Bool.false_eq_true, if_false]
        apply ih
        rw [hst, List.tail_cons]
        exact h

theorem commaFree_sub {xs ys : List Char} (h : ys ⊆ xs) (hx : commaFree xs) :
    commaFree ys := fun a ha => hx a (h ha)

theorem commaFree_cons {x : Char} {t : List Char} (hx : x ≠ ',') (ht : commaFree t) :
    commaFree (x :: t) := by
  intro a ha
  rcases List.mem_cons.mp ha with rfl | ha2
  · exact hx
  · exact ht a ha2

theorem commaFree_append {xs ys : List Char} (hx : commaFree xs) (hy : commaFree ys) :
    commaFree (xs ++ ys) := by
  intro a ha
  rcases List.mem_append.mp ha with ha2 | ha2
  · exact hx a ha2
  · exact hy a ha2

theorem tailPart_commaFree {C U : List Char} (hC : commaFree C) (hU : commaFree U) :
    commaFree (tailPart C U) :=
  commaFree_append hC (commaFree_cons (by decide)
    (commaFree_cons (by decide) (commaFree_cons (by decide) hU)))

theorem tailPart_head_ne {C U : List Char} (hC : commaFree C) (hCi : C = [] ∨ hasInk C) :
    ¬ ((tailPart C U).dropWhile isJsWs).head? = some ',' := by
  rcases hCi with rfl | hCi
  · show ¬ ((' ' :: '-' :: ' ' :: U).dropWhile isJsWs).head? = some ','
    rw [List.dropWhile_cons, if_pos (by decide), List.dropWhile_cons, if_neg (by decide)]
    simp
  · unfold tailPart
    rw [dropWhile_ws_append_ink C hCi]
    obtain ⟨y, t, h1, -, h3⟩ := dropWhile_ws_ink_head C hCi
    rw [h1]
    simp only [List.cons_append, List.head?_cons, Option.some.injEq]
    exact hC y h3

theorem hasCWC_comma_block {Y : List Char} (hhead : ¬ (Y.dropWhile isJsWs).head? = some ',')
    (hrest : hasCWC Y = false) : hasCWC (',' :: Y) = false := by
  rw [hasCWC, hrest]
  simp only [Bool.or_false, Bool.and_eq_false_iff]
  right
  simpa using hhead

theorem hasCWC_cons_ne {c : Char} (hc : c ≠ ',') {Y : List Char} (h : hasCWC Y = false) :
    hasCWC (c :: Y) = false := by
  rw [hasCWC, h]
  simp [hc]

theorem tailPart_hasCWC {C U : List Char} (hC : commaFree C) (hU : commaFree U) :
    hasCWC (tailPart C U) = false :=
  hasCWC_of_commaFree _ (tailPart_commaFree hC hU)

theorem segHasContent_of_ink {seg : List Char} (h : hasInk seg) :
    segHasContent seg = true := by
  obtain ⟨x, hx, hxw⟩ := h
  exact List.any_eq_true.mpr ⟨x, hx, by simp [hxw]⟩

theorem segHasContent_space_tailPart (C U : List Char) :
    segHasContent (' ' :: tailPart C U) = true := by
  apply segHasContent_of_ink
  exact ⟨'-', by simp [tailPart], by decide⟩

theorem hasCWC_cst {C U : List Char} (hC : commaFree C) (hU : commaFree U)
    (hCi : C = [] ∨ hasInk C) : hasCWC (',' :: ' ' :: tailPart C U) = false := by
  apply hasCWC_comma_block
  · rw [List.dropWhile_cons, if_pos (by decide)]
    exact tailPart_head_ne hC hCi
  · exact hasCWC_cons_ne (by decide) (tailPart_hasCWC hC hU)

theorem hasCWC_b_block {B C U : List Char} (hB : commaFree B) (hBi : hasInk B)
    (hC : commaFree C) (hU : commaFree U) (hCi : C = [] ∨ hasInk C) :
    hasCWC (',' :: ' ' :: (B ++ ',' :: ' ' :: tailPart C U)) = false := by
  apply hasCWC_comma_block
  · rw [List.dropWhile_cons, if_pos (by decide), dropWhile_ws_append_ink B hBi]
    obtain ⟨y, t, h1, -, h3⟩ := dropWhile_ws_ink_head B hBi
    rw [h1]
    simp only [List.cons_append, List.head?_cons, Option.some.injEq]
    exact hB y h3
  · apply hasCWC_cons_ne (by decide)
    rw [hasCWC_append_commaFree B hB]
    exact hasCWC_cst hC hU hCi

theorem cleaned_A {L B C U : List Char} (hL : commaFree L) (hB : commaFree B)
    (hC : commaFree C) (hU : commaFree U) (hLi : hasInk L) (hBi : hasInk B)
    (hCi : C = [] ∨ hasInk C) :
    collapseCommaRuns (stripLeadComma (L ++ ',' :: ' ' :: (B ++ ',' :: ' ' :: tailPart C U)))
      = L ++ ',' :: ' ' :: (B ++ ',' :: ' ' :: tailPart C U) := by
  obtain ⟨x, L2, rfl⟩ : ∃ x L2, L = x :: L2 := by
    cases L with
    | nil =>
      obtain ⟨y, hy, -⟩ := hLi
      simp at hy
    | cons a b => exact ⟨a, b, rfl⟩
  have hx : x ≠ ',' := hL x (List.mem_cons_self _ _)
  rw [List.cons_append]
  have hstrip : stripLeadComma (x :: (L2 ++ ',' :: ' ' :: (B ++ ',' :: ' ' :: tailPart C U)))
      = x :: (L2 ++ ',' :: ' ' :: (B ++ ',' :: ' ' :: tailPart C U)) := by
    simp [stripLeadComma, hx]
  rw [hstrip, ← List.cons_append]
  apply collapse_of_not_cwc
  rw [hasCWC_append_commaFree _ hL]
  exact hasCWC_b_block hB hBi hC hU hCi

theorem cleaned_B {B C U : List Char} (hB : commaFree B) (hC : commaFree C)
    (hU : commaFree U) (hBi : hasInk B) (hCi : C = [] ∨ hasInk C) :
    collapseCommaRuns (stripLeadComma (',' :: ' ' :: (B ++ ',' :: ' ' :: tailPart C U)))
      = B.dropWhile isJsWs ++ ',' :: ' ' :: tailPart C U := by
  have hstrip : stripLeadComma (',' :: ' ' :: (B ++ ',' :: ' ' :: tailPart C U))
      = B.dropWhile isJsWs ++ ',' :: ' ' :: tailPart C U := by
    simp only [stripLeadComma, if_true]
    rw [List.dropWhile_cons, if_pos (by decide), dropWhile_ws_append_ink B hBi]
  rw [hstrip]
  apply collapse_of_not_cwc
  have hdwB : commaFree (B.dropWhile isJsWs) :=
    commaFree_sub (List.dropWhile_subset isJsWs) hB
  rw [hasCWC_append_commaFree _ hdwB]
  exact hasCWC_cst hC hU hCi

theorem cleaned_C {L C U : List Char} (hL : commaFree L) (hC : commaFree C)
    (hU : commaFree U) (hLi : hasInk L) (_hCi : C = [] ∨ hasInk C) :
    collapseCommaRuns (stripLeadComma (L ++ ',' :: ' ' :: (',' :: ' ' :: tailPart C U)))
      = L ++ ',' :: ' ' :: tailPart C U := by
  obtain ⟨x, L2, rfl⟩ : ∃ x L2, L = x :: L2 := by
    cases L with
    | nil =>
      obtain ⟨y, hy, -⟩ := hLi
      simp at hy
    | cons a b => exact ⟨a, b, rfl⟩
  have hx : x ≠ ',' := hL x (List.mem_cons_self _ _)
  rw [List.cons_append]
  have hstrip : stripLeadComma (x :: (L2 ++ ',' :: ' ' :: (',' :: ' ' :: tailPart C U)))
      = x :: (L2 ++ ',' :: ' ' :: (',' :: ' ' :: tailPart C U)) := by
    simp [stripLeadComma, hx]
  rw [hstrip, ← List.cons_append, collapse_append_commaFree _ hL]
  have hmatch : ((' ' :: ',' :: ' ' :: tailPart C U).dropWhile isJsWs).head? = some ',' := by
    rw [List.dropWhile_cons, if_pos (by decide), List.dropWhile_cons, if_neg (by decide)]
    rfl
  rw [collapseCommaRuns_cons_match hmatch]
  have htail : ((' ' :: ',' :: ' ' :: tailPart C U).dropWhile isJsWs).tail
      = ' ' :: tailPart C U := by
    rw [List.dropWhile_cons, if_pos (by decide), List.dropWhile_cons, if_neg (by decide)]
    rfl
  rw [htail, collapse_of_not_cwc _ (hasCWC_cons_ne (by decide) (tailPart_hasCWC hC hU))]

theorem cleaned_D {C U : List Char} (hC : commaFree C) (hU : commaFree U)
    (hCi : hasInk C) :
    collapseCommaRuns (stripLeadComma (',' :: ' ' :: (',' :: ' ' :: tailPart C U)))
      = ',' :: ' ' :: tailPart C U := by
  have hstrip : stripLeadComma (',' :: ' ' :: (',' :: ' ' :: tailPart C U))
      = ',' :: ' ' :: tailPart C U := by
    simp only [stripLeadComma, if_true]
    rw [List.dropWhile_cons, if_pos (by decide), List.dropWhile_cons,
      if_neg (by decide)]
  rw [hstrip]
  rw [collapseCommaRuns_cons_nomatch ?hno]
  case hno =>
    rintro ⟨-, hh⟩
    rw [List.dropWhile_cons, if_pos (by decide)] at hh
    exact tailPart_head_ne hC (Or.inr hCi) hh
  rw [collapse_of_not_cwc _ (hasCWC_cons_ne (by decide) (tailPart_hasCWC hC hU))]

theorem segments_two {P C U : List Char} (hP : commaFree P) (hC : commaFree C)
    (hU : commaFree U) :
    splitComma (P ++ ',' :: ' ' :: tailPart C U) = [P, ' ' :: tailPart C U] := by
  have h3 : splitComma (tailPart C U) = [tailPart C U] :=
    splitComma_commaFree _ (tailPart_commaFree hC hU)
  have h2 : splitComma (' ' :: tailPart C U) = [' ' :: tailPart C U] :=
    splitComma_cons_ne (by decide) h3
  have h1 : splitComma (',' :: ' ' :: tailPart C U) = [] :: [' ' :: tailPart C U] := by
    rw [splitComma_comma, h2]
  have := splitComma_append_commaFree P hP h1
  simpa using this

theorem segments_A {L B C U : List Char} (hL : commaFree L) (hB : commaFree B)
    (hC : commaFree C) (hU : commaFree U) :
    splitComma (L ++ ',' :: ' ' :: (B ++ ',' :: ' ' :: tailPart C U))
      = [L, ' ' :: B, ' ' :: tailPart C U] := by
  have h0 : splitComma (B ++ ',' :: ' ' :: tailPart C U) = [B, ' ' :: tailPart C U] :=
    segments_two hB hC hU
  have hX : splitComma (' ' :: (B ++ ',' :: ' ' :: tailPart C U))
      = (' ' :: B) :: [' ' :: tailPart C U] :=
    splitComma_cons_ne (by decide) h0
  have h1 : splitComma (',' :: ' ' :: (B ++ ',' :: ' ' :: tailPart C U))
      = [] :: ((' ' :: B) :: [' ' :: tailPart C U]) := by
    rw [splitComma_comma, hX]
  have := splitComma_append_commaFree L hL h1
  simpa using this

theorem segments_D {C U : List Char} (hC : commaFree C) (hU : commaFree U) :
    splitComma (',' :: ' ' :: tailPart C U) = [[], ' ' :: tailPart C U] := by
  rw [splitComma_comma]
  rw [splitComma_cons_ne (by decide) (splitComma_commaFree _ (tailPart_commaFree hC hU))]

theorem str_empty_iff (s : String) : s = "" ↔ s.data = [] := by
  constructor
  · intro h
    rw [h]
  · intro h
    cases s
    simp at h
    rw [h]

/-- C8 counterexample: for a successful lookup whose entry has no street and
no neighborhood (city and state only, as accepted by the incomplete-data
check), the joined display string keeps a leading comma, i.e. an empty
comma-delimited segment survives the cleanup. -/
theorem joinAddress_cleanup_counterexample :
    ¬(seData.logradouro = "" ∧ seData.bairro = "" ∧ seData.localidade = "")
    ∧ joinAddress seData = ", São Paulo - SP"
    ∧ noEmptySegment (joinAddress seData).data = false := by
  refine ⟨?_, ?_, ?_⟩ <;> decide

/-- C8 (amended): for every successful lookup whose fields are comma-free and
not whitespace-only, the joined display string has no empty comma-delimited
segment and no consecutive commas provided the street and the neighborhood
are not both absent; when both are absent (so only the city is present) the
cleaned string instead retains exactly one leading empty segment — the
remaining segment is non-empty — and still has no consecutive commas. -/
theorem joinAddress_cleanup (d : ViaCepData)
    (hL : commaFree d.logradouro.data) (hB : commaFree d.bairro.data)
    (hC : commaFree d.localidade.data) (hU : commaFree d.uf.data)
    (hLi : d.logradouro = "" ∨ hasInk d.logradouro.data)
    (hBi : d.bairro = "" ∨ hasInk d.bairro.data)
    (hCi : d.localidade = "" ∨ hasInk d.localidade.data) :
    (¬(d.logradouro = "" ∧ d.bairro = "") →
      noEmptySegment (joinAddress d).data = true
      ∧ noDoubleComma (joinAddress d).data = true)
    ∧ (d.logradouro = "" → d.bairro = "" → d.localidade ≠ "" →
      splitComma (joinAddress d).data
          = [[], ' ' :: tailPart d.localidade.data d.uf.data]
      ∧ segHasContent (' ' :: tailPart d.localidade.data d.uf.data) = true
      ∧ noDoubleComma (joinAddress d).data = true) := by
  have hjoin : (joinAddress d).data
      = collapseCommaRuns (stripLeadComma (d.logradouro.data ++ ',' :: ' ' ::
          (d.bairro.data ++ ',' :: ' ' :: tailPart d.localidade.data d.uf.data))) := rfl
  have hCi2 : d.localidade.data = [] ∨ hasInk d.localidade.data := by
    rcases hCi with h | h
    · exact Or.inl ((str_empty_iff _).mp h)
    · exact Or.inr h
  constructor
  · intro hnot
    by_cases hLe : d.logradouro = ""
    · have hBe : d.bairro ≠ "" := fun h => hnot ⟨hLe, h⟩
      have hBi2 : hasInk d.bairro.data := by
        rcases hBi with h | h
        · exact absurd h hBe
        · exact h
      have hLnil : d.logradouro.data = [] := (str_empty_iff _).mp hLe
      rw [hjoin, hLnil, List.nil_append, cleaned_B hB hC hU hBi2 hCi2]
      have hsegs := @segments_two _ _ d.uf.data
        (commaFree_sub (List.dropWhile_subset isJsWs) hB) hC hU
      constructor
      · unfold noEmptySegment
        rw [hsegs]
        simp only [List.all_cons, List.all_nil, Bool.and_true, Bool.and_eq_true]
        refine ⟨?_, segHasContent_space_tailPart _ _⟩
        obtain ⟨y, t, h1, h2, -⟩ := dropWhile_ws_ink_head _ hBi2
        rw [h1]
        exact segHasContent_of_ink ⟨y, List.mem_cons_self _ _, h2⟩
      · unfold noDoubleComma
        have htails : (((splitComma (d.bairro.data.dropWhile isJsWs ++
            ',' :: ' ' :: tailPart d.localidade.data d.uf.data)).tail).all
              (fun s => !s.isEmpty)) = true := by
          rw [hsegs]
          simp
        rw [hasSub_dbl_false _ htails]
        rfl
    · have hLi2 : hasInk d.logradouro.data := by
        rcases hLi with h | h
        · exact absurd h hLe
        · exact h
      by_cases hBe : d.bairro = ""
      · have hBnil : d.bairro.data = [] := (str_empty_iff _).mp hBe
        rw [hjoin, hBnil, List.nil_append, cleaned_C hL hC hU hLi2 hCi2]
        have hsegs := @segments_two _ _ d.uf.data hL hC hU
        constructor
        · unfold noEmptySegment
          rw [hsegs]
          simp only [List.all_cons, List.all_nil, Bool.and_true, Bool.and_eq_true]
          exact ⟨segHasContent_of_ink hLi2, segHasContent_space_tailPart _ _⟩
        · unfold noDoubleComma
          have htails : (((splitComma (d.logradouro.data ++
              ',' :: ' ' :: tailPart d.localidade.data d.uf.data)).tail).all
                (fun s => !s.isEmpty)) = true := by
            rw [hsegs]
            simp
          rw [hasSub_dbl_false _ htails]
          rfl
      · have hBi2 : hasInk d.bairro.data := by
          rcases hBi with h | h
          · exact absurd h hBe
          · exact h
        rw [hjoin, cleaned_A hL hB hC hU hLi2 hBi2 hCi2]
        have hsegs := @segments_A _ _ _ d.uf.data hL hB hC hU
        constructor
        · unfold noEmptySegment
          rw [hsegs]
          simp only [List.all_cons, List.all_nil, Bool.and_true, Bool.and_eq_true]
          refine ⟨segHasContent_of_ink hLi2, ?_, segHasContent_space_tailPart _ _⟩
          obtain ⟨y, hy, h2⟩ := hBi2
          exact segHasContent_of_ink ⟨y, List.mem_cons_of_mem _ hy, h2⟩
        · unfold noDoubleComma
          have htails : (((splitComma (d.logradouro.data ++ ',' :: ' ' ::
              (d.bairro.data ++ ',' :: ' ' :: tailPart d.localidade.data d.uf.data))).tail).all
                (fun s => !s.isEmpty)) = true := by
            rw [hsegs]
            simp
          rw [hasSub_dbl_false _ htails]
          rfl
  · intro hLe hBe hCne
    have hCik : hasInk d.localidade.data := by
      rcases hCi with h | h
      · exact absurd h hCne
      · exact h
    have hLnil : d.logradouro.data = [] := (str_empty_iff _).mp hLe
    have hBnil : d.bairro.data = [] := (str_empty_iff _).mp hBe
    rw [hjoin, hLnil, hBnil, List.nil_append, List.nil_append, cleaned_D hC hU hCik]
    refine ⟨segments_D hC hU, segHasContent_space_tailPart _ _, ?_⟩
    unfold noDoubleComma
    have htails : (((splitComma (',' :: ' ' ::
        tailPart d.localidade.data d.uf.data)).tail).all (fun s => !s.isEmpty)) = true := by
      rw [segments_D hC hU]
      simp
    rw [hasSub_dbl_false _ htails]
    rfl

/-- Witness for C8 (amended) at a concrete lookup result with all fields
present. -/
theorem joinAddress_cleanup_witness :
    ¬(ruaAData.logradouro = "" ∧ ruaAData.bairro = "")
    ∧ noEmptySegment (joinAddress ruaAData).data = true
    ∧ noDoubleComma (joinAddress ruaAData).data = true :=
  ⟨by decide,
   (joinAddress_cleanup ruaAData
      (by unfold commaFree; decide) (by unfold commaFree; decide)
      (by unfold commaFree; decide) (by unfold commaFree; decide)
      (Or.inr (by unfold hasInk; decide)) (Or.inr (by unfold hasInk; decide))
      (Or.inr (by unfold hasInk; decide))).1 (by decide)⟩

end Chat
